import Mathlib

/-!
# Project3: shared counters, signal generators, handlers and reporter

A shallow embedding of `Project3final/main.c` and `Project3final/header.h`.

* C `int` is a 32-bit two's-complement integer, modelled as `Int` reduced by
  `wrap_int`; C `uint` is modelled as `Nat` reduced modulo `2 ^ 32`.
* The POSIX objects the program talks to (the shared-memory object
  `COUNTER_FILE`, the named semaphore `SEM_NAME`) are fields of `World`;
  every library call that is visible from the outside appends an `Event`
  to `World.trace`.
* The globals of `header.h` (`child_loop`, `total_emissions`) live in
  `Globals`: every process created by `fork()` owns a private copy.
-/

namespace Project3

/-! ## Constants of `header.h` and of the C library -/

/-- COUNTER_AMOUNT of header.h. -/
def COUNTER_AMOUNT : Int := 4
/-- RX_COUNTER_SIGUSR1 of header.h. -/
def RX_COUNTER_SIGUSR1 : Int := 0
/-- RX_COUNTER_SIGUSR2 of header.h. -/
def RX_COUNTER_SIGUSR2 : Int := 1
/-- TX_COUNTER_SIGUSR1 of header.h. -/
def TX_COUNTER_SIGUSR1 : Int := 2
/-- TX_COUNTER_SIGUSR2 of header.h. -/
def TX_COUNTER_SIGUSR2 : Int := 3
/-- TX_PROCESS_AMOUNT of header.h. -/
def TX_PROCESS_AMOUNT : Nat := 3
/-- RX_PROCESS_AMOUNT of header.h. -/
def RX_PROCESS_AMOUNT : Nat := 4
/-- MAX_GENERATOR_LOOP of header.h. -/
def MAX_GENERATOR_LOOP : Nat := 100000
/-- EXIT_SUCCESS of stdlib.h. -/
def EXIT_SUCCESS : Int := 0
/-- EXIT_FAILURE of stdlib.h. -/
def EXIT_FAILURE : Int := 1
/-- SIGUSR1 of signal.h (its Linux value; only its being different from SIGUSR2 is used). -/
def SIGUSR1 : Int := 10
/-- SIGUSR2 of signal.h (its Linux value). -/
def SIGUSR2 : Int := 12
/-- Largest value of a C int. -/
def INT_MAX : Int := 2147483647

/-- Reduction of a mathematical integer to the range of a 32-bit C int
(two's complement wrap-around; signed overflow is undefined in ISO C and
wraps on the platforms the program targets). -/
def wrap_int (x : Int) : Int := (x + 2147483648) % 4294967296 - 2147483648

/-- Reduction of a natural number to the range of a 32-bit C uint. -/
def wrap_uint (x : Nat) : Nat := x % 4294967296

/-- Subtraction of two C uint values: the difference modulo 2 ^ 32. -/
def usub (a b : Nat) : Nat := (a % 4294967296 + (4294967296 - b % 4294967296)) % 4294967296

/-! ## The shared world -/

/-- The four int slots behind `counter_address` once `COUNTER_FILE` is mapped.
Slot i is `counter_address[i]`: 0 = RX SIGUSR1, 1 = RX SIGUSR2,
2 = TX SIGUSR1, 3 = TX SIGUSR2. (The object is sized and mapped with length
COUNTER_AMOUNT, that is 4 bytes; a mapping covers a whole page, and the four
ints are taken to live in that page, shared by every process that maps the object.) -/
structure Counters where
  c0 : Int
  c1 : Int
  c2 : Int
  c3 : Int
  deriving DecidableEq, Repr

/-- The value of `counter_address[i]`. -/
def Counters.get (c : Counters) (i : Int) : Int :=
  if i = 0 then c.c0 else if i = 1 then c.c1 else if i = 2 then c.c2 else
  if i = 3 then c.c3 else 0

/-- The effect of `counter_address[i] = v` (no slot is written outside 0..3). -/
def Counters.set (c : Counters) (i : Int) (v : Int) : Counters :=
  if i = 0 then { c with c0 := v } else if i = 1 then { c with c1 := v } else
  if i = 2 then { c with c2 := v } else if i = 3 then { c with c3 := v } else c

/-- All four slots zero. -/
def Counters.zero : Counters := { c0 := 0, c1 := 0, c2 := 0, c3 := 0 }

/-- The library calls whose failure the program reports through `fail`. -/
inductive Call where
  | shm_open
  | ftruncate
  | sem_open
  deriving DecidableEq, Repr

/-- Externally visible actions of a process. -/
inductive Event where
  /-- The call sem_trywait( mutex_sem ); the flag tells whether the semaphore was taken. -/
  | sem_trywait (acquired : Bool)
  /-- The call sem_post( mutex_sem ). -/
  | sem_post
  /-- The call perror( msg ) made by the `fail` macro. -/
  | perror (call : Call)
  /-- The call usleep( us ). -/
  | usleep (us : Nat)
  /-- The call kill( 0, sig ): one broadcast to the whole process group. -/
  | kill (sig : Int)
  /-- The call shm_unlink( COUNTER_FILE ). -/
  | shm_unlink
  /-- One `print_report`: both averages, then TX1, TX2, RX1, RX2 as read. -/
  | report (avg1 avg2 : Nat) (tx1 tx2 rx1 rx2 : Int)
  deriving DecidableEq, Repr

/-- State shared by every process of the program. -/
structure World where
  /-- The shared-memory object named COUNTER_FILE: `none` when no such object exists. -/
  shm : Option Counters
  /-- The value of the semaphore behind `mutex_sem`. -/
  sem : Nat
  /-- Every event so far, oldest first. -/
  trace : List Event
  deriving DecidableEq, Repr

/-- Conditions of the host under which the calls of `init_counters` fail. -/
structure Env where
  /-- A new shared-memory object cannot be created (shm_open with O_CREAT returns -1
  when the object does not exist yet). -/
  deny_create : Bool
  /-- The call ftruncate returns -1. -/
  deny_ftruncate : Bool
  deriving DecidableEq, Repr

/-- A host on which no call of `init_counters` fails. -/
def Env.ok : Env := { deny_create := false, deny_ftruncate := false }

/-- Append one event to the trace. -/
def World.emit (w : World) (e : Event) : World := { w with trace := w.trace ++ [e] }

/-- The macro `fail(msg)`: perror, then `return EXIT_FAILURE`. -/
def fail (call : Call) (w : World) : Int × World := (EXIT_FAILURE, w.emit (Event.perror call))

/-- The call sem_trywait: takes the semaphore when its value is positive, and
returns at once without taking it otherwise. -/
def sem_trywait (w : World) : World :=
  if 0 < w.sem then { w with sem := w.sem - 1, trace := w.trace ++ [Event.sem_trywait true] }
  else w.emit (Event.sem_trywait false)

/-- The call sem_post: adds one to the semaphore. -/
def sem_post (w : World) : World :=
  { w with sem := w.sem + 1, trace := w.trace ++ [Event.sem_post] }

/-! ## Counter store: `init_counters`, `inc_counter`, `read_counter`, `remove_counters` -/

/-- The loop `for ( i = 0; i < COUNTER_AMOUNT; i++ ) counter_address[i] = 0;` -/
def zero_counters (c : Counters) : Counters :=
  (((c.set 0 0).set 1 0).set 2 0).set 3 0

/-- The world as the host holds it: the world the functions of a process act on,
together with the one state of the object named COUNTER_FILE they cannot act on. -/
structure HostWorld extends World where
  /-- The object exists with length 0: shm_open created it and ftruncate never sized
  it. It can be opened and mapped, but it holds no counter: the first access to
  `counter_address[ index ]` kills the process (SIGBUS). The field `shm` is `none` then. -/
  unsized : Bool
  deriving DecidableEq, Repr

/-- Embedding of init_counters. shm_open( COUNTER_FILE, O_CREAT | O_RDWR ) opens the
object, creating it with length 0 when absent; then ftruncate, mmap, the zeroing
loop, munmap and close. A failing shm_open or ftruncate goes through `fail`: after a
failed ftruncate a store that existed keeps its counters as they were, and an object
just created stays without counters (`unsized`). The result of mmap is not checked by
the code and the call is taken to succeed here. -/
def init_counters (env : Env) (w : World) : Int × HostWorld :=
  if w.shm = none ∧ env.deny_create = true then
    ((fail Call.shm_open w).1, { toWorld := (fail Call.shm_open w).2, unsized := false })
  else if env.deny_ftruncate = true then
    ((fail Call.ftruncate w).1,
     { toWorld := (fail Call.ftruncate w).2, unsized := decide (w.shm = none) })
  else
    (1, { toWorld := { w with shm := some (zero_counters (w.shm.getD Counters.zero)) },
          unsized := false })

/-- Embedding of inc_counter( index ) on a world whose store is absent or holds its
counters, with a mapping that succeeds: the value returned and the world left. The
executions in which the process is killed inside the call are those of
inc_counter_exec. -/
def inc_counter (index : Int) (w : World) : Int × World :=
  if index < 0 ∨ index ≥ COUNTER_AMOUNT then (-1, w)
  else
    let w1 := sem_trywait w
    match w1.shm with
    | none => fail Call.shm_open (sem_post w1)
    | some c =>
      let w2 := { w1 with shm := some (c.set index (wrap_int (c.get index + 1))) }
      (1, sem_post w2)

/-- Embedding of read_counter( index ). -/
def read_counter (index : Int) (w : World) : Int × World :=
  if index < 0 ∨ index ≥ COUNTER_AMOUNT then (-1, w)
  else
    match w.shm with
    | none => fail Call.shm_open w
    | some c => (c.get index, w)

/-- Embedding of remove_counters: shm_unlink( COUNTER_FILE ), whose result is ignored. -/
def remove_counters (w : World) : World :=
  { w with shm := none, trace := w.trace ++ [Event.shm_unlink] }

/-- How a call of a store function ends. -/
inductive Outcome where
  /-- The call returned `value`, leaving the world `w`. -/
  | returned (value : Int) (w : HostWorld)
  /-- The process was killed inside the call by the fault raised on
  `counter_address[ index ]` (SIGBUS on an object without counters, SIGSEGV on the
  result of a failed mmap), leaving the world `w`. -/
  | killed (w : HostWorld)
  deriving DecidableEq, Repr

/-- Embedding of inc_counter( index ) on the world as the host holds it, with every
way the call can end; `mmap_fails` tells whether mmap returns MAP_FAILED, which the
code does not check. After sem_trywait: shm_open fails only when there is no object
(sem_post, then `fail`); on an object without counters, or after a failed mmap, the
increment faults and the process is killed before munmap, close and sem_post. -/
def inc_counter_exec (mmap_fails : Bool) (index : Int) (hw : HostWorld) : Outcome :=
  if index < 0 ∨ index ≥ COUNTER_AMOUNT then Outcome.returned (-1) hw
  else
    let w1 := sem_trywait hw.toWorld
    match w1.shm with
    | some c =>
      if mmap_fails = true then Outcome.killed { toWorld := w1, unsized := hw.unsized }
      else
        Outcome.returned 1
          { toWorld := sem_post { w1 with shm := some (c.set index (wrap_int (c.get index + 1))) },
            unsized := hw.unsized }
    | none =>
      if hw.unsized = true then Outcome.killed { toWorld := w1, unsized := true }
      else
        Outcome.returned (fail Call.shm_open (sem_post w1)).1
          { toWorld := (fail Call.shm_open (sem_post w1)).2, unsized := false }

/-! ## Per-process state -/

/-- The globals of header.h that a process reads and writes, together with the
position of the process in its `rand()` sequence. `fork()` gives the child a
private copy of all of it. -/
structure Globals where
  /-- The global `uint child_loop`. -/
  child_loop : Nat
  /-- The global `uint total_emissions`. -/
  total_emissions : Nat
  /-- Number of calls of `rand()` made so far by this process. -/
  rand_calls : Nat
  deriving DecidableEq, Repr

/-- The state of the globals in `main` when it starts forking: the
initialisers of header.h, after `child_loop = 1;` at the top of `main`. -/
def Globals.main : Globals := { child_loop := 1, total_emissions := 0, rand_calls := 0 }

/-- The call fork(), seen from the child: a copy of the globals of the parent. -/
def fork (parent : Globals) : Globals := parent

/-- How a loop that blocks in sigwait ends on a finite sequence of arrivals. -/
inductive LoopEnd where
  /-- The loop condition `child_loop` was found zero: the process left the loop and exits. -/
  | exited
  /-- Every arrival has been handled and the process is blocked in sigwait. -/
  | waiting
  deriving DecidableEq, Repr

/-! ## Child loop utility functions -/

/-- Result of one call of get_avg_interval, with the array accesses and the
divisions the call performed. -/
structure AvgRun where
  /-- The value returned. -/
  result : Nat
  /-- The indices of `time_list` read, in program order. -/
  reads : List Nat
  /-- The number of divisions executed. -/
  divisions : Nat
  deriving DecidableEq, Repr

/-- The loop `for ( i = 0; i < count - 1; i++ ) avg += time_list[ i + 1 ] - time_list[ i ];`
with `n` iterations left, at index `i`. -/
def avg_loop (time_list : Nat → Nat) : Nat → Nat → Nat → List Nat → Nat × List Nat
  | 0, _, avg, reads => (avg, reads)
  | n + 1, i, avg, reads =>
    avg_loop time_list n (i + 1)
      (wrap_uint (avg + usub (time_list (i + 1)) (time_list i))) (reads ++ [i + 1, i])

/-- Embedding of get_avg_interval( time_list, count ). -/
def get_avg_interval (time_list : Nat → Nat) (count : Nat) : AvgRun :=
  if count < 1 then { result := 0, reads := [], divisions := 0 }
  else
    let r := avg_loop time_list (count - 1) 0 0 []
    { result := r.1 / count, reads := r.2, divisions := 1 }

/-- Embedding of get_sleep_time, on the value `r` returned by rand(). -/
def get_sleep_time (r : Nat) : Nat := 10000 + r % 90000

/-- Embedding of get_random_signum, on the value `r` returned by rand(). -/
def get_random_signum (r : Nat) : Nat := r % 2

/-- Embedding of print_report: the four counters are read through read_counter
in the order TX1, TX2, RX1, RX2. -/
def print_report (sigusr1_avg_us sigusr2_avg_us : Nat) (w : World) : World :=
  let a := read_counter TX_COUNTER_SIGUSR1 w
  let b := read_counter TX_COUNTER_SIGUSR2 a.2
  let c := read_counter RX_COUNTER_SIGUSR1 b.2
  let d := read_counter RX_COUNTER_SIGUSR2 c.2
  d.2.emit (Event.report sigusr1_avg_us sigusr2_avg_us a.1 b.1 c.1 d.1)

/-! ## The reporter -/

/-- The locals of report_loop. The arrays `sigusr1_timeval[10]` and
`sigusr2_timeval[10]` are the memory cells at index 0, 1, ... from their base;
`writes1` and `writes2` record the index of every store into them. -/
structure Reporter where
  counter : Nat
  sigusr1_count : Nat
  sigusr2_count : Nat
  sigusr1_timeval : Nat → Nat
  sigusr2_timeval : Nat → Nat
  writes1 : List Nat
  writes2 : List Nat

/-- The locals of report_loop on entry. -/
def Reporter.start : Reporter :=
  { counter := 0, sigusr1_count := 0, sigusr2_count := 0,
    sigusr1_timeval := fun _ => 0, sigusr2_timeval := fun _ => 0,
    writes1 := [], writes2 := [] }

/-- Declared length of `sigusr1_timeval` and `sigusr2_timeval`. -/
def TIMEVAL_LENGTH : Nat := 10

/-- One pass through the body of the while loop of report_loop, after sigwait
returned `sig_caught` and with `now` the value get_timestamp() returns. -/
def report_iteration (sig_caught : Int) (now : Nat) (r : Reporter) (w : World) :
    Reporter × World :=
  if sig_caught = SIGUSR1 ∨ sig_caught = SIGUSR2 then
    let r1 : Reporter :=
      if sig_caught = SIGUSR1 then
        { r with sigusr1_timeval := Function.update r.sigusr1_timeval r.sigusr1_count now,
                 writes1 := r.writes1 ++ [r.sigusr1_count],
                 sigusr1_count := wrap_uint (r.sigusr1_count + 1) }
      else r
    let r2 : Reporter :=
      if sig_caught = SIGUSR2 then
        { r1 with sigusr2_timeval := Function.update r1.sigusr2_timeval r1.sigusr2_count now,
                  writes2 := r1.writes2 ++ [r1.sigusr2_count],
                  sigusr2_count := wrap_uint (r1.sigusr2_count + 1) }
      else r1
    let r3 : Reporter := { r2 with counter := wrap_uint (r2.counter + 1) }
    if r3.counter > 10 then
      let w1 := print_report
        (get_avg_interval r3.sigusr1_timeval r3.sigusr1_count).result
        (get_avg_interval r3.sigusr2_timeval r3.sigusr2_count).result w
      ({ r3 with sigusr1_count := 0, sigusr2_count := 0, counter := 0 }, w1)
    else (r3, w)
  else (r, w)

/-- Embedding of the while loop of report_loop, driven by the sequence of
(signal returned by sigwait, timestamp) pairs. -/
def report_loop : List (Int × Nat) → Globals → Reporter → World → LoopEnd × Reporter × World
  | arrivals, g, r, w =>
    if g.child_loop = 0 then (LoopEnd.exited, r, w)
    else
      match arrivals with
      | [] => (LoopEnd.waiting, r, w)
      | a :: rest =>
        let s := report_iteration a.1 a.2 r w
        report_loop rest g s.1 s.2

/-! ## The signal handlers -/

/-- The signal a handler of `group` waits for: the mask built at the top of
signal_handler_loop holds SIGUSR1 for group 1 and SIGUSR2 otherwise. -/
def handler_mask (group : Int) : Int := if group = 1 then SIGUSR1 else SIGUSR2

/-- One pass through the body of the while loop of signal_handler_loop, after
sigwait returned `sig_caught`. -/
def handler_iteration (group : Int) (sig_caught : Int) (w : World) : World :=
  let w1 := if sig_caught = SIGUSR1 ∧ group = 1 then (inc_counter RX_COUNTER_SIGUSR1 w).2 else w
  if sig_caught = SIGUSR2 ∧ group = 0 then (inc_counter RX_COUNTER_SIGUSR2 w1).2 else w1

/-- Embedding of the while loop of signal_handler_loop( group ), driven by the
sequence of signals returned by sigwait. (The callbacks sigusr1_rx_handler and
sigusr2_rx_handler installed before the loop never run: their signal is blocked in
the process and consumed by sigwait.) -/
def signal_handler_loop (group : Int) : List Int → Globals → World → LoopEnd × World
  | arrivals, g, w =>
    if g.child_loop = 0 then (LoopEnd.exited, w)
    else
      match arrivals with
      | [] => (LoopEnd.waiting, w)
      | sig :: rest => signal_handler_loop group rest g (handler_iteration group sig w)

/-! ## The signal generators -/

/-- The body of the while loop of signal_generator_loop; `n` is the number of
calls of rand() the process made before, `rand k` the value of its call number k. -/
def generator_body (rand : Nat → Nat) (n : Nat) (w : World) : World :=
  let w1 := w.emit (Event.usleep (get_sleep_time (rand n)))
  if get_random_signum (rand (n + 1)) ≠ 0 then
    (inc_counter TX_COUNTER_SIGUSR1 w1).2.emit (Event.kill SIGUSR1)
  else
    (inc_counter TX_COUNTER_SIGUSR2 w1).2.emit (Event.kill SIGUSR2)

/-- The loop `while ( total_emissions++ < MAX_GENERATOR_LOOP ) { ... }`. -/
def running_loop (rand : Nat → Nat) (g : Globals) (w : World) : Globals × World :=
  if g.total_emissions < MAX_GENERATOR_LOOP then
    running_loop rand
      { g with total_emissions := wrap_uint (g.total_emissions + 1),
               rand_calls := g.rand_calls + 2 }
      (generator_body rand g.rand_calls w)
  else ({ g with total_emissions := wrap_uint (g.total_emissions + 1) }, w)
termination_by MAX_GENERATOR_LOOP - g.total_emissions
decreasing_by
  simp_wf
  simp only [MAX_GENERATOR_LOOP, wrap_uint] at *
  omega

/-- The loop `for ( i = 0; i < 10; i++ ) { usleep(40000); kill( 0, SIGUSR1 ); kill( 0, SIGUSR2 ); }`
with `n` rounds left. -/
def burst_loop : Nat → World → World
  | 0, w => w
  | n + 1, w =>
    burst_loop n
      (((w.emit (Event.usleep 40000)).emit (Event.kill SIGUSR1)).emit (Event.kill SIGUSR2))

/-- Embedding of signal_generator_loop: the running loop, `child_loop = 0;`, the
burst, then `exit( EXIT_SUCCESS )`. Returns the exit status, the globals of the
generator process at exit and the world. -/
def signal_generator_loop (rand : Nat → Nat) (g : Globals) (w : World) : Int × Globals × World :=
  let s := running_loop rand g w
  (EXIT_SUCCESS, { s.1 with child_loop := 0 }, burst_loop 10 s.2)

/-! ## The reset command of `main` -/

/-- Embedding of the branch of main taken for `./app reset`: remove_counters,
init_counters (its result is ignored), the loop printing read_counter( i ) for
i = 0..3, then `return EXIT_SUCCESS`. Returns the exit code, the four values
printed and the world. -/
def reset_command (env : Env) (w : World) : Int × List Int × World :=
  let w1 := (init_counters env (remove_counters w)).2.toWorld
  let a := read_counter 0 w1
  let b := read_counter 1 a.2
  let c := read_counter 2 b.2
  let d := read_counter 3 c.2
  (EXIT_SUCCESS, [a.1, b.1, c.1, d.1], d.2)

/-! ## Measures on traces -/

/-- Number of sem_trywait events of a trace: the attempts to take the gate. -/
def acquires (t : List Event) : Nat :=
  (t.filter (fun e => match e with | Event.sem_trywait _ => true | _ => false)).length

/-- Number of sem_post events of a trace: the releases of the gate. -/
def releases (t : List Event) : Nat :=
  (t.filter (fun e => match e with | Event.sem_post => true | _ => false)).length

/-- Number of perror events of a trace: the failures reported. -/
def errors (t : List Event) : Nat :=
  (t.filter (fun e => match e with | Event.perror _ => true | _ => false)).length

/-- Number of `kill` events of a trace: the notifications broadcast. -/
def broadcasts (t : List Event) : Nat :=
  (t.filter (fun e => match e with | Event.kill _ => true | _ => false)).length

/-! ## The spawned system: processes taking turns

Every child runs in its own process, so that between two shared accesses of one
process any other process may run. The functions above are cut into the steps
below at every access to shared state (semaphore, mapped counters, signals). -/

/-- Where a process stands inside inc_counter. -/
inductive IncPc where
  /-- Before the index check and `sem_trywait( mutex_sem )`. -/
  | trywait
  /-- Before shm_open, mmap and the read of `counter_address[ index ]`. -/
  | load
  /-- After the read returned `v`, before `v + 1` is written back. -/
  | store (v : Int)
  /-- Before the final `sem_post( mutex_sem )`. -/
  | post
  deriving DecidableEq, Repr

/-- One step of inc_counter( index ) from the place `pc`; `none` as next place
means that inc_counter has returned. -/
def inc_step (index : Int) (pc : IncPc) (w : World) : World × Option IncPc :=
  match pc with
  | IncPc.trywait =>
    if index < 0 ∨ index ≥ COUNTER_AMOUNT then (w, none) else (sem_trywait w, some IncPc.load)
  | IncPc.load =>
    match w.shm with
    | none => ((fail Call.shm_open (sem_post w)).2, none)
    | some c => (w, some (IncPc.store (c.get index)))
  | IncPc.store v =>
    ({ w with shm := w.shm.map (fun c => c.set index (wrap_int (v + 1))) }, some IncPc.post)
  | IncPc.post => (sem_post w, none)

/-- Where a generator process stands inside signal_generator_loop. -/
inductive GenPc where
  /-- At the test `total_emissions++ < MAX_GENERATOR_LOOP`. -/
  | test
  /-- Inside inc_counter: of the SIGUSR1 branch when `usr1`, of the SIGUSR2 branch otherwise. -/
  | inc (usr1 : Bool) (pc : IncPc)
  /-- Before the `kill` of the branch. -/
  | kill (usr1 : Bool)
  /-- In round `i` of the burst, before usleep and `kill( 0, SIGUSR1 )`. -/
  | burst1 (i : Nat)
  /-- In round `i` of the burst, before `kill( 0, SIGUSR2 )`. -/
  | burst2 (i : Nat)
  /-- After `exit( EXIT_SUCCESS )`. -/
  | exited
  deriving DecidableEq, Repr

/-- A generator process. -/
structure Generator where
  g : Globals
  pc : GenPc
  deriving DecidableEq, Repr

/-- Where a handler process stands inside signal_handler_loop. -/
inductive HandlerPc where
  /-- At the loop test, then blocked in sigwait. -/
  | wait
  /-- Inside inc_counter( RX_COUNTER_SIGUSR1 ) when `usr1`, inside
  inc_counter( RX_COUNTER_SIGUSR2 ) otherwise. -/
  | inc (usr1 : Bool) (pc : IncPc)
  /-- After `exit( EXIT_SUCCESS )`. -/
  | exited
  deriving DecidableEq, Repr

/-- A handler process; `pending1` and `pending2` tell whether SIGUSR1 and SIGUSR2 are
pending for it (both are blocked, and a pending standard signal is not queued twice). -/
structure Handler where
  group : Int
  g : Globals
  pending1 : Bool
  pending2 : Bool
  pc : HandlerPc
  deriving DecidableEq, Repr

/-- The reporter process. -/
structure ReporterProc where
  g : Globals
  pending1 : Bool
  pending2 : Bool
  r : Reporter
  exited : Bool

/-- The children of main and the world they share. The generators and main itself
also receive every broadcast; both signals are blocked there and never waited for,
so that nothing follows from it. -/
structure Sys where
  w : World
  gens : List Generator
  handlers : List Handler
  reporter : ReporterProc

/-- One step of a generator; the third component is the signal it broadcast, if any. -/
def gen_step (rand : Nat → Nat) (p : Generator) (w : World) :
    Option (Generator × World × Option Int) :=
  match p.pc with
  | GenPc.test =>
    if p.g.total_emissions < MAX_GENERATOR_LOOP then
      some ({ g := { p.g with total_emissions := wrap_uint (p.g.total_emissions + 1),
                              rand_calls := p.g.rand_calls + 2 },
              pc := GenPc.inc (decide (get_random_signum (rand (p.g.rand_calls + 1)) ≠ 0))
                      IncPc.trywait },
            w.emit (Event.usleep (get_sleep_time (rand p.g.rand_calls))), none)
    else
      some ({ g := { p.g with total_emissions := wrap_uint (p.g.total_emissions + 1),
                              child_loop := 0 },
              pc := GenPc.burst1 0 }, w, none)
  | GenPc.inc usr1 ipc =>
    let r := inc_step (if usr1 then TX_COUNTER_SIGUSR1 else TX_COUNTER_SIGUSR2) ipc w
    match r.2 with
    | some next => some ({ p with pc := GenPc.inc usr1 next }, r.1, none)
    | none => some ({ p with pc := GenPc.kill usr1 }, r.1, none)
  | GenPc.kill usr1 =>
    some ({ p with pc := GenPc.test },
          w.emit (Event.kill (if usr1 then SIGUSR1 else SIGUSR2)),
          some (if usr1 then SIGUSR1 else SIGUSR2))
  | GenPc.burst1 i =>
    if i < 10 then
      some ({ p with pc := GenPc.burst2 i },
            (w.emit (Event.usleep 40000)).emit (Event.kill SIGUSR1), some SIGUSR1)
    else some ({ p with pc := GenPc.exited }, w, none)
  | GenPc.burst2 i =>
    some ({ p with pc := GenPc.burst1 (i + 1) }, w.emit (Event.kill SIGUSR2), some SIGUSR2)
  | GenPc.exited => none

/-- One step of a handler: `none` when it is blocked in sigwait or has exited. -/
def handler_step (h : Handler) (w : World) : Option (Handler × World) :=
  match h.pc with
  | HandlerPc.wait =>
    if h.g.child_loop = 0 then some ({ h with pc := HandlerPc.exited }, w)
    else if handler_mask h.group = SIGUSR1 then
      if h.pending1 = true then
        some ({ h with pending1 := false,
                       pc := if h.group = 1 then HandlerPc.inc true IncPc.trywait
                             else HandlerPc.wait }, w)
      else none
    else
      if h.pending2 = true then
        some ({ h with pending2 := false,
                       pc := if h.group = 0 then HandlerPc.inc false IncPc.trywait
                             else HandlerPc.wait }, w)
      else none
  | HandlerPc.inc usr1 ipc =>
    let r := inc_step (if usr1 then RX_COUNTER_SIGUSR1 else RX_COUNTER_SIGUSR2) ipc w
    match r.2 with
    | some next => some ({ h with pc := HandlerPc.inc usr1 next }, r.1)
    | none => some ({ h with pc := HandlerPc.wait }, r.1)
  | HandlerPc.exited => none

/-- One step of the reporter: sigwait returns the pending signal `sig` and
get_timestamp returns `now`; `none` when `sig` is not pending or the process has exited. -/
def reporter_step (sig : Int) (now : Nat) (p : ReporterProc) (w : World) :
    Option (ReporterProc × World) :=
  if p.exited = true then none
  else if p.g.child_loop = 0 then some ({ p with exited := true }, w)
  else if sig = SIGUSR1 ∧ p.pending1 = true then
    let s := report_iteration sig now p.r w
    some ({ p with pending1 := false, r := s.1 }, s.2)
  else if sig = SIGUSR2 ∧ p.pending2 = true then
    let s := report_iteration sig now p.r w
    some ({ p with pending2 := false, r := s.1 }, s.2)
  else none

/-- Arrival of the broadcast signal `sig` at a handler. -/
def Handler.deliver (sig : Int) (h : Handler) : Handler :=
  if sig = SIGUSR1 then { h with pending1 := true }
  else if sig = SIGUSR2 then { h with pending2 := true }
  else h

/-- Arrival of the broadcast signal `sig` at the reporter. -/
def ReporterProc.deliver (sig : Int) (p : ReporterProc) : ReporterProc :=
  if sig = SIGUSR1 then { p with pending1 := true }
  else if sig = SIGUSR2 then { p with pending2 := true }
  else p

/-- Whose turn it is. -/
inductive Action where
  /-- Generator number `k` takes its next step. -/
  | gen (k : Nat)
  /-- Handler number `k` takes its next step. -/
  | handler (k : Nat)
  /-- The reporter takes its next step, on signal `sig` at time `now`. -/
  | reporter (sig : Int) (now : Nat)
  deriving DecidableEq, Repr

/-- One step of the system; `none` when the chosen process cannot move. -/
def step (rand : Nat → Nat) (s : Sys) (a : Action) : Option Sys :=
  match a with
  | Action.gen k =>
    match s.gens[k]? with
    | none => none
    | some p =>
      match gen_step rand p s.w with
      | none => none
      | some (q, w1, none) => some { s with w := w1, gens := s.gens.set k q }
      | some (q, w1, some sig) =>
        some { w := w1, gens := s.gens.set k q,
               handlers := s.handlers.map (Handler.deliver sig),
               reporter := s.reporter.deliver sig }
  | Action.handler k =>
    match s.handlers[k]? with
    | none => none
    | some h =>
      match handler_step h s.w with
      | none => none
      | some (h1, w1) => some { s with w := w1, handlers := s.handlers.set k h1 }
  | Action.reporter sig now =>
    match reporter_step sig now s.reporter s.w with
    | none => none
    | some (p, w1) => some { s with w := w1, reporter := p }

/-- A run of the system along a schedule. -/
def exec (rand : Nat → Nat) : List Action → Sys → Option Sys
  | [], s => some s
  | a :: rest, s =>
    match step rand s a with
    | none => none
    | some t => exec rand rest t

/-- The values `process` takes in the body of `while ( process-- > 0 )` when the
loop starts at `n`: n - 1, ..., 1, 0. -/
def countdown : Nat → List Nat
  | 0 => []
  | n + 1 => n :: countdown n

/-- The children main forks, at the moment the last one is forked, in the world `w`
they find (store absent, or present with any counters): one reporter, a handler of
group `process & 1` for process = 3, 2, 1, 0 and three generators, every child with
its copy of the globals of main. A host on which init_counters left the object
without counters is not among these worlds: there a child is killed at its first
access to the counters (inc_counter_exec), and no state of this system describes it. -/
def spawned_at (w : World) : Sys :=
  { w := w,
    gens := (countdown TX_PROCESS_AMOUNT).map
      (fun _ => { g := fork Globals.main, pc := GenPc.test }),
    handlers := (countdown RX_PROCESS_AMOUNT).map
      (fun process => { group := ((process % 2 : Nat) : Int), g := fork Globals.main,
                        pending1 := false, pending2 := false, pc := HandlerPc.wait }),
    reporter := { g := fork Globals.main, pending1 := false, pending2 := false,
                  r := Reporter.start, exited := false } }

/-- The system forked after a successful init_counters (`Env.ok`), starting from the
store `shm0` found on the host and the semaphore at `sem`, with an empty trace. -/
def spawned (shm0 : Option Counters) (sem : Nat) : Sys :=
  spawned_at (init_counters Env.ok { shm := shm0, sem := sem, trace := [] }).2.toWorld

/-- The states the system forked after a successful init_counters can reach under
some schedule. -/
def Reachable (rand : Nat → Nat) (s : Sys) : Prop :=
  ∃ (shm0 : Option Counters) (sem : Nat) (acts : List Action),
    exec rand acts (spawned shm0 sem) = some s

/-- Number of `kill( 0, sig )` events of a trace. -/
def sent (sig : Int) (t : List Event) : Nat :=
  (t.filter (fun e => match e with | Event.kill x => decide (x = sig) | _ => false)).length

/-- The straight-line run of inc_step from the entry of inc_counter to its return. -/
def inc_run (index : Int) (w : World) : World :=
  match inc_step index IncPc.trywait w with
  | (w1, none) => w1
  | (w1, some p1) =>
    match inc_step index p1 w1 with
    | (w2, none) => w2
    | (w2, some p2) =>
      match inc_step index p2 w2 with
      | (w3, none) => w3
      | (w3, some p3) => (inc_step index p3 w3).1

/-- A generator taking `n` steps in a row, no other process in between. -/
def gen_run (rand : Nat → Nat) : Nat → Generator → World → Option (Generator × World)
  | 0, p, w => some (p, w)
  | n + 1, p, w =>
    match gen_step rand p w with
    | none => none
    | some (q, w1, _) => gen_run rand n q w1

/-- A handler taking `n` steps in a row, no other process in between. -/
def handler_run : Nat → Handler → World → Option (Handler × World)
  | 0, h, w => some (h, w)
  | n + 1, h, w =>
    match handler_step h w with
    | none => none
    | some (h1, w1) => handler_run n h1 w1

/-! ## Measures on the handlers of a system state

The two notification kinds are told apart by a flag `u`: `true` for SIGUSR1, counted
in slot 0 by the handlers of group 1, `false` for SIGUSR2, counted in slot 1 by the
handlers of group 0. -/

/-- The signal of kind `u`. -/
def kind_sig (u : Bool) : Int := if u then SIGUSR1 else SIGUSR2

/-- The group of the handlers that count kind `u`. -/
def kind_group (u : Bool) : Int := if u then 1 else 0

/-- The receive counter of kind `u`. -/
def kind_rx (u : Bool) : Int := if u then RX_COUNTER_SIGUSR1 else RX_COUNTER_SIGUSR2

/-- Whether the signal of kind `u` is pending at the handler. -/
def Handler.pend (u : Bool) (h : Handler) : Bool := if u then h.pending1 else h.pending2

/-- Whether the handler is inside inc_counter for kind `u` and has not yet written. -/
def Handler.in_flight (u : Bool) (h : Handler) : Bool :=
  match h.pc with
  | HandlerPc.inc x IncPc.trywait => x == u
  | HandlerPc.inc x IncPc.load => x == u
  | HandlerPc.inc x (IncPc.store _) => x == u
  | _ => false

/-- The writes to the receive counter of kind `u` the handler is still going to make
without a further broadcast: one for a pending signal it counts, one for an
increment under way. -/
def Handler.owed (u : Bool) (h : Handler) : Nat :=
  (if h.group = kind_group u ∧ h.pend u = true then 1 else 0) +
  (if h.in_flight u = true then 1 else 0)

/-- Sum of `Handler.owed` over the handlers. -/
def owed_total (u : Bool) (hs : List Handler) : Nat := (hs.map (Handler.owed u)).sum

/-- Number of handlers of the group that counts kind `u`. -/
def subscribers (u : Bool) (hs : List Handler) : Nat :=
  (hs.map (fun h => if h.group = kind_group u then 1 else 0)).sum

/-- The invariant behind the bound on the receive counter of kind `u`: the store
exists; the counter, and every value a handler has read from it and is about to
write back incremented, stays at least `owed_total` below twice the number of
broadcasts of the kind; at most two handlers count the kind. -/
def RxInv (u : Bool) (s : Sys) : Prop :=
  ∃ c : Counters, s.w.shm = some c ∧
    -2147483648 ≤ c.get (kind_rx u) ∧
    c.get (kind_rx u) + owed_total u s.handlers ≤ 2 * sent (kind_sig u) s.w.trace ∧
    (∀ h ∈ s.handlers, ∀ v, h.pc = HandlerPc.inc u (IncPc.store v) →
      -2147483648 ≤ v ∧ v + owed_total u s.handlers ≤ 2 * sent (kind_sig u) s.w.trace) ∧
    subscribers u s.handlers ≤ 2

/-- The sum rx_kind_a + rx_kind_b as read_counter returns it. -/
def rx_sum (w : World) : Int :=
  (read_counter RX_COUNTER_SIGUSR1 w).1 + (read_counter RX_COUNTER_SIGUSR2 w).1

/-- The sum tx_kind_a + tx_kind_b as read_counter returns it. -/
def tx_sum (w : World) : Int :=
  (read_counter TX_COUNTER_SIGUSR1 w).1 + (read_counter TX_COUNTER_SIGUSR2 w).1

/-- The generators main forks in `while ( process-- > 0 )` from TX_PROCESS_AMOUNT,
each run to its exit before the next one starts (one of the possible schedules);
each child starts from its copy of the globals of main. -/
def run_generators (rand : Nat → Nat) (w : World) : World :=
  (countdown TX_PROCESS_AMOUNT).foldl
    (fun v _ => (signal_generator_loop rand (fork Globals.main) v).2.2) w

/-- The invariant behind the private copies of `child_loop`: every handler and the
reporter hold the value 1 and none has left its loop. -/
def FlagInv (s : Sys) : Prop :=
  (∀ h ∈ s.handlers, h.g.child_loop = 1 ∧ h.pc ≠ HandlerPc.exited) ∧
  s.reporter.g.child_loop = 1 ∧ s.reporter.exited = false

/-! ## The coordinator: `main` -/

/-- What main finds on the host besides the world. -/
structure Host where
  /-- Conditions under which the calls of init_counters fail. -/
  env : Env
  /-- The call sem_open returns SEM_FAILED. -/
  deny_sem_open : Bool
  /-- A semaphore named SEM_NAME exists already (left by an earlier run; the program
  never unlinks it); its value is then the field `sem` of the world. -/
  sem_exists : Bool
  deriving DecidableEq, Repr

/-- The call sem_open( SEM_NAME, O_CREAT, 0666, value ): opens the semaphore of that
name, leaving its value as it is, or creates it with the initial value `value` when
there is none. -/
def sem_open (sem_exists : Bool) (value : Nat) (w : World) : World :=
  if sem_exists = true then w else { w with sem := value }

/-- The children main forks. -/
inductive Child where
  /-- A child that runs report_loop(). -/
  | reporter
  /-- A child that runs signal_handler_loop( group ). -/
  | handler (group : Int)
  /-- A child that runs signal_generator_loop(). -/
  | generator
  deriving DecidableEq, Repr

/-- The outcome of a run of main. -/
structure MainRun where
  /-- The value main returns: the exit code of the coordinator. -/
  exit_code : Int
  /-- The children forked, in order. -/
  forked : List Child
  /-- The world when main returns. -/
  w : World
  deriving DecidableEq, Repr

/-- The test `argc > 1` followed by `strcmp( argv[1], "reset" ) == 0`. -/
def is_reset (argv : List String) : Bool :=
  match argv with
  | _ :: a :: _ => a == "reset"
  | _ => false

/-- The children of the three fork sites of main: the reporter, then a handler of
group `process & 1` for process = RX_PROCESS_AMOUNT - 1, ..., 0, then
TX_PROCESS_AMOUNT generators. -/
def main_forks : List Child :=
  [Child.reporter] ++
  (countdown RX_PROCESS_AMOUNT).map (fun process => Child.handler ((process % 2 : Nat) : Int)) ++
  (countdown TX_PROCESS_AMOUNT).map (fun _ => Child.generator)

/-- Embedding of main. `children` is what the forked children do to the world between
the last fork and the moment `wait` finds no child left. In order: the reset
branch; sem_open with initial value 0, guarded by `fail`; init_counters, whose result
is not looked at; the forks; the wait loop; remove_counters; `return 1`. -/
def main (host : Host) (argv : List String) (children : World → World) (w : World) : MainRun :=
  if is_reset argv = true then
    let r := reset_command host.env w
    { exit_code := r.1, forked := [], w := r.2.2 }
  else if host.deny_sem_open = true then
    let r := fail Call.sem_open w
    { exit_code := r.1, forked := [], w := r.2 }
  else
    let w1 := sem_open host.sem_exists 0 w
    let w2 := (init_counters host.env w1).2.toWorld
    { exit_code := 1, forked := main_forks, w := remove_counters (children w2) }

/-- The world of the children right after the forks of a normal run of main. -/
def main_world_at_fork (host : Host) (w : World) : World :=
  (init_counters host.env (sem_open host.sem_exists 0 w)).2.toWorld

/-- The world as the host holds it right after the forks of a normal run of main. -/
def host_world_at_fork (host : Host) (w : World) : HostWorld :=
  (init_counters host.env (sem_open host.sem_exists 0 w)).2

/-! ## Sample inputs -/

/-- A world in which the store exists, counter 0 holding INT_MAX. -/
def world_full : World :=
  { shm := some { c0 := 2147483647, c1 := 0, c2 := 0, c3 := 0 }, sem := 0, trace := [] }

/-- A world in which the store exists with small values. -/
def world_small : World :=
  { shm := some { c0 := 5, c1 := 6, c2 := 7, c3 := 8 }, sem := 1, trace := [] }

/-- The world right after a successful init_counters: all counters zero. -/
def world_zero : World := { shm := some Counters.zero, sem := 0, trace := [] }

/-- A `rand()` that always returns 0: every emission is SIGUSR2 after 10 ms. -/
def rand_zero : Nat → Nat := fun _ => 0

/-- A schedule: generator 0 emits once (SIGUSR2 under rand_zero), then the two handlers
of group 0 (numbers 1 and 3) each wake and count it. -/
def one_emission_two_wakes : List Action :=
  [Action.gen 0, Action.gen 0, Action.gen 0, Action.gen 0, Action.gen 0, Action.gen 0,
   Action.handler 1, Action.handler 1, Action.handler 1, Action.handler 1, Action.handler 1,
   Action.handler 3, Action.handler 3, Action.handler 3, Action.handler 3, Action.handler 3]

/-- The state the schedule one_emission_two_wakes leads to. -/
def after_two_wakes : Sys :=
  (exec rand_zero one_emission_two_wakes (spawned none 0)).getD (spawned none 0)

/-- Eleven arrivals of SIGUSR1 at the reporter, one every 100 microseconds. -/
def eleven_sigusr1 : List (Int × Nat) :=
  (List.range 11).map (fun k => (SIGUSR1, 1000 + 100 * k))

/-- A host without semaphore and without store on which nothing fails. -/
def host_fresh : Host := { env := Env.ok, deny_sem_open := false, sem_exists := false }

/-- A host without semaphore on which ftruncate fails. -/
def host_no_ftruncate : Host :=
  { env := { deny_create := false, deny_ftruncate := true }, deny_sem_open := false,
    sem_exists := false }

/-- A host without semaphore on which a shared-memory object cannot be created. -/
def host_no_shm : Host :=
  { env := { deny_create := true, deny_ftruncate := false }, deny_sem_open := false,
    sem_exists := false }

/-- The world of a host that holds neither store nor semaphore. -/
def world_fresh : World := { shm := none, sem := 0, trace := [] }

/-- A world in which the store exists, counter 1 holding INT_MAX. -/
def world_full_rx2 : World :=
  { shm := some { c0 := 3, c1 := 2147483647, c2 := 0, c3 := 0 }, sem := 1, trace := [] }

/-- Timestamps 100, 350, 700, 1300 at the indices 0..3 (0 elsewhere). -/
def four_timestamps : Nat → Nat := fun i =>
  if i = 0 then 100 else if i = 1 then 350 else if i = 2 then 700 else if i = 3 then 1300 else 0

/-! # Properties

## Counter store -/

theorem wrap_int_of_range (x : Int) (h1 : -2147483648 ≤ x) (h2 : x ≤ 2147483647) :
    wrap_int x = x := by
  unfold wrap_int
  omega

theorem wrap_int_le (x : Int) : wrap_int x ≤ x ∨ x < -2147483648 := by
  unfold wrap_int
  omega

theorem get_set_same (c : Counters) (i v : Int) (h0 : 0 ≤ i) (h4 : i < 4) :
    (c.set i v).get i = v := by
  have h : i = 0 ∨ i = 1 ∨ i = 2 ∨ i = 3 := by omega
  rcases h with h | h | h | h <;> subst h <;> simp [Counters.set, Counters.get]

/-- C1, refuted as stated: with counter 0 at INT_MAX the store exists, read_counter( 0 )
returns 2147483647, inc_counter( 0 ) returns 1, and read_counter( 0 ) afterwards
returns -2147483648, not one more than before (an int cannot hold INT_MAX + 1). -/
theorem counter_at_int_max_wraps :
    (read_counter 0 world_full).1 = 2147483647 ∧
    (inc_counter 0 world_full).1 = 1 ∧
    (read_counter 0 (inc_counter 0 world_full).2).1 = -2147483648 ∧
    ¬ (∀ (i : Int) (w : World), 0 ≤ i → i < 4 → w.shm ≠ none →
        (inc_counter i w).1 = 1 ∧
        (read_counter i (inc_counter i w).2).1 = (read_counter i w).1 + 1) := by
  refine ⟨by decide, by decide, by decide, fun h => ?_⟩
  have h1 := (h 0 world_full (by decide) (by decide) (by decide)).2
  revert h1
  decide

/-- C1, amended: for every index i in 0..3 and every world whose store exists and whose
counter i is below INT_MAX, inc_counter( i ) returns 1 and read_counter( i ) afterwards
returns exactly one more than read_counter( i ) returned before. -/
theorem inc_then_read (i : Int) (w : World) (h0 : 0 ≤ i) (h4 : i < 4) (hs : w.shm ≠ none)
    (hmax : (read_counter i w).1 < INT_MAX) (hmin : -2147483648 ≤ (read_counter i w).1) :
    (inc_counter i w).1 = 1 ∧
    (read_counter i (inc_counter i w).2).1 = (read_counter i w).1 + 1 := by
  obtain ⟨shm, sem, trace⟩ := w
  cases shm with
  | none => exact absurd rfl hs
  | some c =>
    have hi : ¬ (i < 0 ∨ i ≥ COUNTER_AMOUNT) := by simp only [COUNTER_AMOUNT]; omega
    simp only [read_counter, hi, if_false] at hmax hmin
    simp only [INT_MAX] at hmax
    have hw : wrap_int (c.get i + 1) = c.get i + 1 := wrap_int_of_range _ (by omega) (by omega)
    by_cases hsem : 0 < sem <;>
      simp [inc_counter, read_counter, hi, sem_trywait, sem_post, World.emit, hsem, hw,
        get_set_same c i _ h0 h4]

/-- Witness of the amended C1: counter 2 of a small store goes from 7 to 8. -/
theorem inc_then_read_witness :
    (inc_counter 2 world_small).1 = 1 ∧
    (read_counter 2 (inc_counter 2 world_small).2).1 = (read_counter 2 world_small).1 + 1 :=
  inc_then_read 2 world_small (by decide) (by decide) (by decide) (by decide) (by decide)

/-- C2: for every index below 0 or at least 4, inc_counter returns -1 and hands back
the world it was given, so that all four counters (and the semaphore and the trace)
are unchanged. -/
theorem inc_counter_invalid_index (index : Int) (w : World) (h : index < 0 ∨ 4 ≤ index) :
    (inc_counter index w).1 = -1 ∧ (inc_counter index w).2.shm = w.shm ∧
    (inc_counter index w).2 = w := by
  have hi : index < 0 ∨ index ≥ COUNTER_AMOUNT := by simp only [COUNTER_AMOUNT]; omega
  simp [inc_counter, hi]

/-- Witness of C2 at index 4 on a store with values 5, 6, 7, 8. -/
theorem inc_counter_invalid_index_witness :
    (inc_counter 4 world_small).1 = -1 ∧ (inc_counter 4 world_small).2.shm = world_small.shm ∧
    (inc_counter 4 world_small).2 = world_small :=
  inc_counter_invalid_index 4 world_small (Or.inr (by decide))

/-- On a world whose store is absent or holds its counters, inc_counter extends the
trace by events among which the sem_post count equals the sem_trywait count; that
count is 1 when the index is in 0..3 (whether the semaphore was taken or not, and
whether the store could be opened or not) and 0 when the index is rejected. -/
theorem inc_counter_returns_released (index : Int) (w : World) :
    ∃ evs : List Event, (inc_counter index w).2.trace = w.trace ++ evs ∧
      releases evs = acquires evs ∧
      acquires evs = (if index < 0 ∨ index ≥ COUNTER_AMOUNT then 0 else 1) := by
  obtain ⟨shm, sem, trace⟩ := w
  by_cases hi : index < 0 ∨ index ≥ COUNTER_AMOUNT
  · exact ⟨[], by simp [inc_counter, hi, releases, acquires]⟩
  · by_cases hsem : 0 < sem
    · cases shm with
      | none =>
        exact ⟨[Event.sem_trywait true, Event.sem_post, Event.perror Call.shm_open], by
          simp [inc_counter, hi, sem_trywait, sem_post, fail, World.emit, hsem, releases,
            acquires]⟩
      | some c =>
        exact ⟨[Event.sem_trywait true, Event.sem_post], by
          simp [inc_counter, hi, sem_trywait, sem_post, World.emit, hsem, releases, acquires]⟩
    · cases shm with
      | none =>
        exact ⟨[Event.sem_trywait false, Event.sem_post, Event.perror Call.shm_open], by
          simp [inc_counter, hi, sem_trywait, sem_post, fail, World.emit, hsem, releases,
            acquires]⟩
      | some c =>
        exact ⟨[Event.sem_trywait false, Event.sem_post], by
          simp [inc_counter, hi, sem_trywait, sem_post, World.emit, hsem, releases, acquires]⟩

/-! ## Reset -/

/-- C8: from every world (store absent, or present with any values) the reset command
on a host where creating and sizing the store succeed prints four zeros, leaves all
four counters at zero, reports no error and exits with 0; run a second time on the
world the first run left, it does the same. -/
theorem reset_idempotent (w : World) :
    (reset_command Env.ok w).2.2.shm = some Counters.zero ∧
    (reset_command Env.ok w).2.1 = [0, 0, 0, 0] ∧
    errors (reset_command Env.ok w).2.2.trace = errors w.trace ∧
    (init_counters Env.ok (remove_counters w)).1 = 1 ∧
    (reset_command Env.ok (reset_command Env.ok w).2.2).2.2.shm = some Counters.zero ∧
    (reset_command Env.ok (reset_command Env.ok w).2.2).2.1 = [0, 0, 0, 0] ∧
    errors (reset_command Env.ok (reset_command Env.ok w).2.2).2.2.trace = errors w.trace ∧
    (init_counters Env.ok (remove_counters (reset_command Env.ok w).2.2)).1 = 1 ∧
    (reset_command Env.ok w).1 = 0 ∧
    (reset_command Env.ok (reset_command Env.ok w).2.2).1 = 0 := by
  obtain ⟨shm, sem, trace⟩ := w
  simp [reset_command, init_counters, remove_counters, read_counter, Env.ok, zero_counters,
    Counters.set, Counters.get, Counters.zero, COUNTER_AMOUNT, errors, EXIT_SUCCESS,
    List.filter_append]

/-! ## Average interval -/

/-- C9: for every timestamp array, get_avg_interval with count 0 returns 0, reads no
element of the array and executes no division. -/
theorem get_avg_interval_zero_count (time_list : Nat → Nat) :
    get_avg_interval time_list 0 = { result := 0, reads := [], divisions := 0 } := by
  simp [get_avg_interval]

/-! ## Reporter -/

/-- C7, evaluated on the code: after eleven consecutive arrivals of SIGUSR1 the reporter
has stored into sigusr1_timeval at the indices 0, 1, ..., 10; the last store is at
index 10, outside the ten declared entries 0..9. -/
theorem report_loop_writes_index_ten :
    (report_loop eleven_sigusr1 (fork Globals.main) Reporter.start world_small).2.1.writes1
      = [0, 1, 2, 3, 4, 5, 6, 7, 8, 9, 10] ∧
    ¬ (∀ i ∈ (report_loop eleven_sigusr1 (fork Globals.main) Reporter.start
          world_small).2.1.writes1, i < TIMEVAL_LENGTH) := by
  have h : (report_loop eleven_sigusr1 (fork Globals.main) Reporter.start
      world_small).2.1.writes1 = [0, 1, 2, 3, 4, 5, 6, 7, 8, 9, 10] := by
    decide
  refine ⟨h, ?_⟩
  rw [h]
  decide

/-! ## Generator -/

theorem broadcasts_append (t u : List Event) :
    broadcasts (t ++ u) = broadcasts t + broadcasts u := by
  simp [broadcasts, List.filter_append]

theorem inc_counter_valid (i : Int) (w : World) (h0 : 0 ≤ i) (h4 : i < 4) :
    inc_counter i w =
      ((match w.shm with | none => EXIT_FAILURE | some _ => 1),
       { shm := w.shm.map (fun c => c.set i (wrap_int (c.get i + 1))),
         sem := (if 0 < w.sem then w.sem - 1 else w.sem) + 1,
         trace := w.trace ++ [Event.sem_trywait (decide (0 < w.sem)), Event.sem_post] ++
           (match w.shm with | none => [Event.perror Call.shm_open] | some _ => []) }) := by
  obtain ⟨shm, sem, trace⟩ := w
  have hi : ¬ (i < 0 ∨ i ≥ COUNTER_AMOUNT) := by simp only [COUNTER_AMOUNT]; omega
  by_cases hsem : 0 < sem <;> cases shm <;>
    simp [inc_counter, hi, sem_trywait, sem_post, fail, World.emit, hsem]

theorem inc_counter_trace_broadcasts (i : Int) (w : World) :
    broadcasts (inc_counter i w).2.trace = broadcasts w.trace := by
  by_cases hi : i < 0 ∨ i ≥ COUNTER_AMOUNT
  · simp [inc_counter, hi]
  · have h0 : 0 ≤ i := by omega
    have h4 : i < 4 := by simp only [COUNTER_AMOUNT] at hi; omega
    rw [inc_counter_valid i w h0 h4]
    cases h : w.shm <;> simp [broadcasts, List.filter_append]

theorem inc_counter_shm (i : Int) (w : World) (h0 : 0 ≤ i) (h4 : i < 4) :
    (inc_counter i w).2.shm = w.shm.map (fun c => c.set i (wrap_int (c.get i + 1))) := by
  rw [inc_counter_valid i w h0 h4]

theorem emit_shm (w : World) (e : Event) : (w.emit e).shm = w.shm := rfl

theorem emit_trace (w : World) (e : Event) : (w.emit e).trace = w.trace ++ [e] := rfl

theorem broadcasts_kill (sig : Int) : broadcasts [Event.kill sig] = 1 := rfl

theorem broadcasts_usleep (us : Nat) : broadcasts [Event.usleep us] = 0 := rfl

/-- The facts about the transmit counters and the trace that one pass of the
running loop preserves or advances. -/
theorem generator_body_step (rand : Nat → Nat) (n : Nat) (w : World) (c : Counters)
    (hs : w.shm = some c) (h2 : 0 ≤ c.c2) (h3 : 0 ≤ c.c3) (hsum : c.c2 + c.c3 < INT_MAX) :
    ∃ d : Counters, (generator_body rand n w).shm = some d ∧ 0 ≤ d.c2 ∧ 0 ≤ d.c3 ∧
      d.c2 + d.c3 = c.c2 + c.c3 + 1 ∧ d.c0 = c.c0 ∧ d.c1 = c.c1 ∧
      broadcasts (generator_body rand n w).trace = broadcasts w.trace + 1 := by
  simp only [INT_MAX] at hsum
  unfold generator_body
  by_cases hr : get_random_signum (rand (n + 1)) ≠ 0
  · rw [if_pos hr]
    have hw : wrap_int (c.c2 + 1) = c.c2 + 1 := wrap_int_of_range _ (by omega) (by omega)
    refine ⟨c.set 2 (wrap_int (c.get 2 + 1)), ?_, ?_⟩
    · rw [emit_shm, inc_counter_shm _ _ (by decide) (by decide), emit_shm, hs]
      rfl
    · simp only [emit_trace, broadcasts_append, inc_counter_trace_broadcasts, broadcasts_kill,
        broadcasts_usleep, Counters.set, Counters.get, hw]
      simp
      omega
  · rw [if_neg hr]
    have hw : wrap_int (c.c3 + 1) = c.c3 + 1 := wrap_int_of_range _ (by omega) (by omega)
    refine ⟨c.set 3 (wrap_int (c.get 3 + 1)), ?_, ?_⟩
    · rw [emit_shm, inc_counter_shm _ _ (by decide) (by decide), emit_shm, hs]
      rfl
    · simp only [emit_trace, broadcasts_append, inc_counter_trace_broadcasts, broadcasts_kill,
        broadcasts_usleep, Counters.set, Counters.get, hw]
      simp
      omega

theorem running_loop_spec (rand : Nat → Nat) (n : Nat) :
    ∀ (g : Globals) (w : World) (c : Counters),
      g.total_emissions + n = MAX_GENERATOR_LOOP → w.shm = some c → 0 ≤ c.c2 → 0 ≤ c.c3 →
      c.c2 + c.c3 + n ≤ INT_MAX →
      ∃ d : Counters, (running_loop rand g w).2.shm = some d ∧ 0 ≤ d.c2 ∧ 0 ≤ d.c3 ∧
        d.c2 + d.c3 = c.c2 + c.c3 + n ∧ d.c0 = c.c0 ∧ d.c1 = c.c1 ∧
        broadcasts (running_loop rand g w).2.trace = broadcasts w.trace + n ∧
        (running_loop rand g w).1.total_emissions = MAX_GENERATOR_LOOP + 1 ∧
        (running_loop rand g w).1.child_loop = g.child_loop := by
  induction n with
  | zero =>
    intro g w c hg hs h2 h3 _
    have hlt : ¬ g.total_emissions < MAX_GENERATOR_LOOP := by omega
    rw [running_loop]
    simp only [hlt, if_false]
    refine ⟨c, hs, h2, h3, by simp, rfl, rfl, by simp, ?_, ?_⟩
    · simp only [wrap_uint]
      simp only [MAX_GENERATOR_LOOP] at hg ⊢
      omega
    · trivial
  | succ n ih =>
    intro g w c hg hs h2 h3 hsum
    have hlt : g.total_emissions < MAX_GENERATOR_LOOP := by omega
    rw [running_loop]
    simp only [hlt, if_true]
    obtain ⟨d, hd, hd2, hd3, hdsum, hd0, hd1, hdb⟩ :=
      generator_body_step rand g.rand_calls w c hs h2 h3 (by push_cast at hsum; omega)
    have hwrap : wrap_uint (g.total_emissions + 1) = g.total_emissions + 1 := by
      simp only [wrap_uint]
      simp only [MAX_GENERATOR_LOOP] at hlt
      omega
    obtain ⟨e, he, he2, he3, hesum, he0, he1, heb, hte, hcl⟩ :=
      ih { g with total_emissions := wrap_uint (g.total_emissions + 1),
                  rand_calls := g.rand_calls + 2 }
        (generator_body rand g.rand_calls w) d (by simp only [hwrap]; omega) hd hd2 hd3
        (by push_cast at hsum; omega)
    refine ⟨e, he, he2, he3, ?_, by omega, by omega, ?_, hte, hcl⟩
    · push_cast; omega
    · omega

theorem burst_loop_spec (n : Nat) :
    ∀ w : World, (burst_loop n w).shm = w.shm ∧
      broadcasts (burst_loop n w).trace = broadcasts w.trace + 2 * n := by
  induction n with
  | zero => intro w; simp [burst_loop]
  | succ n ih =>
    intro w
    obtain ⟨h1, h2⟩ := ih
      (((w.emit (Event.usleep 40000)).emit (Event.kill SIGUSR1)).emit (Event.kill SIGUSR2))
    rw [burst_loop]
    refine ⟨by rw [h1]; simp [World.emit], ?_⟩
    rw [h2]
    simp [World.emit, broadcasts_append, broadcasts]
    omega

theorem generator_full_run (rand : Nat → Nat) (g : Globals) (w : World)
    (hg : g.total_emissions = 0) (hs : w.shm = some Counters.zero) :
    ∃ d : Counters, (signal_generator_loop rand g w).2.2.shm = some d ∧
      d.c2 + d.c3 = 100000 ∧ d.c0 = 0 ∧ d.c1 = 0 ∧
      broadcasts (running_loop rand g w).2.trace = broadcasts w.trace + 100000 ∧
      broadcasts (signal_generator_loop rand g w).2.2.trace = broadcasts w.trace + 100020 ∧
      (signal_generator_loop rand g w).2.1.total_emissions = 100001 := by
  obtain ⟨d, hd, -, -, hsum, h0, h1, hb, hte, -⟩ :=
    running_loop_spec rand MAX_GENERATOR_LOOP g w Counters.zero (by rw [hg]; simp) hs
      (by decide) (by decide) (by decide)
  obtain ⟨hbs, hbb⟩ := burst_loop_spec 10 (running_loop rand g w).2
  refine ⟨d, ?_, ?_, ?_, ?_, ?_, ?_, ?_⟩
  · simp only [signal_generator_loop]
    rw [hbs, hd]
  · rw [hsum]; decide
  · rw [h0]; rfl
  · rw [h1]; rfl
  · rw [hb]; rfl
  · simp only [signal_generator_loop]
    rw [hbb, hb]
    simp only [MAX_GENERATOR_LOOP]
  · simp only [signal_generator_loop]
    rw [hte]
    rfl

/-- C5, refuted as stated: a generator forked by main runs to its exit on zeroed
counters with a rand() that always returns 0; the transmit counters then add up to
100000 while the trace holds 100020 broadcasts, so the sum differs from the number of
notifications the generator broadcast. -/
theorem tx_sum_misses_burst :
    (read_counter TX_COUNTER_SIGUSR1
        (signal_generator_loop rand_zero (fork Globals.main) world_zero).2.2).1 +
      (read_counter TX_COUNTER_SIGUSR2
        (signal_generator_loop rand_zero (fork Globals.main) world_zero).2.2).1 = 100000 ∧
    broadcasts (signal_generator_loop rand_zero (fork Globals.main) world_zero).2.2.trace
      = 100020 ∧
    (read_counter TX_COUNTER_SIGUSR1
        (signal_generator_loop rand_zero (fork Globals.main) world_zero).2.2).1 +
      (read_counter TX_COUNTER_SIGUSR2
        (signal_generator_loop rand_zero (fork Globals.main) world_zero).2.2).1 ≠
    (broadcasts (signal_generator_loop rand_zero (fork Globals.main)
        world_zero).2.2.trace : Int) := by
  obtain ⟨d, hd, hsum, -, -, -, hb, -⟩ :=
    generator_full_run rand_zero (fork Globals.main) world_zero rfl rfl
  have hb2 : broadcasts (signal_generator_loop rand_zero (fork Globals.main)
      world_zero).2.2.trace = 100020 := by
    rw [hb]; rfl
  have hr : (read_counter TX_COUNTER_SIGUSR1
        (signal_generator_loop rand_zero (fork Globals.main) world_zero).2.2).1 +
      (read_counter TX_COUNTER_SIGUSR2
        (signal_generator_loop rand_zero (fork Globals.main) world_zero).2.2).1 = 100000 := by
    simp only [read_counter, hd, TX_COUNTER_SIGUSR1, TX_COUNTER_SIGUSR2, COUNTER_AMOUNT]
    simpa [Counters.get] using hsum
  refine ⟨hr, hb2, ?_⟩
  rw [hr, hb2]
  decide

/-- C5, amended: after a full run of a generator whose own total_emissions starts at 0,
on zeroed counters and with no other writer, tx_kind_a + tx_kind_b is 100000, the
number of notifications broadcast by the running loop; the 20 broadcasts of the
termination burst are not counted, so that the generator has broadcast
tx_kind_a + tx_kind_b + 20 notifications when it exits. -/
theorem tx_sum_counts_running_loop (rand : Nat → Nat) (g : Globals) (w : World)
    (hg : g.total_emissions = 0) (hs : w.shm = some Counters.zero) :
    (read_counter TX_COUNTER_SIGUSR1 (signal_generator_loop rand g w).2.2).1 +
      (read_counter TX_COUNTER_SIGUSR2 (signal_generator_loop rand g w).2.2).1
      = MAX_GENERATOR_LOOP ∧
    broadcasts (running_loop rand g w).2.trace = broadcasts w.trace + MAX_GENERATOR_LOOP ∧
    broadcasts (signal_generator_loop rand g w).2.2.trace
      = broadcasts w.trace + MAX_GENERATOR_LOOP + 20 := by
  obtain ⟨d, hd, hsum, -, -, hbr, hb, -⟩ := generator_full_run rand g w hg hs
  refine ⟨?_, hbr, hb⟩
  simp only [read_counter, hd, TX_COUNTER_SIGUSR1, TX_COUNTER_SIGUSR2, COUNTER_AMOUNT,
    MAX_GENERATOR_LOOP]
  simpa [Counters.get] using hsum

/-- Witness of the amended C5: a generator forked by main, on zeroed counters, with a
rand() whose call number k returns 3 * k. -/
theorem tx_sum_counts_running_loop_witness :
    (fork Globals.main).total_emissions = 0 ∧ world_zero.shm = some Counters.zero ∧
    ((read_counter TX_COUNTER_SIGUSR1
        (signal_generator_loop (fun k => 3 * k) (fork Globals.main) world_zero).2.2).1 +
      (read_counter TX_COUNTER_SIGUSR2
        (signal_generator_loop (fun k => 3 * k) (fork Globals.main) world_zero).2.2).1
      = MAX_GENERATOR_LOOP ∧
    broadcasts (running_loop (fun k => 3 * k) (fork Globals.main) world_zero).2.trace
      = broadcasts world_zero.trace + MAX_GENERATOR_LOOP ∧
    broadcasts (signal_generator_loop (fun k => 3 * k) (fork Globals.main) world_zero).2.2.trace
      = broadcasts world_zero.trace + MAX_GENERATOR_LOOP + 20) :=
  ⟨rfl, rfl, tx_sum_counts_running_loop (fun k => 3 * k) (fork Globals.main) world_zero rfl rfl⟩

/-! ## The spawned system -/

theorem inc_run_eq_inc_counter (index : Int) (w : World) :
    inc_run index w = (inc_counter index w).2 := by
  obtain ⟨shm, sem, trace⟩ := w
  by_cases hi : index < 0 ∨ index ≥ COUNTER_AMOUNT
  · simp [inc_run, inc_step, inc_counter, hi]
  · by_cases hsem : 0 < sem <;> cases shm <;>
      simp [inc_run, inc_step, inc_counter, hi, sem_trywait, sem_post, fail, World.emit, hsem]

theorem sent_append (sig : Int) (t u : List Event) :
    sent sig (t ++ u) = sent sig t + sent sig u := by
  simp [sent, List.filter_append]

theorem sent_kill (sig x : Int) : sent sig [Event.kill x] = if x = sig then 1 else 0 := by
  by_cases h : x = sig <;> simp [sent, h]

theorem sent_single_other (sig : Int) (e : Event) (h : ∀ x, e ≠ Event.kill x) :
    sent sig [e] = 0 := by
  cases e <;> simp [sent] at h ⊢

theorem sent_emit_other (sig : Int) (w : World) (e : Event) (h : ∀ x, e ≠ Event.kill x) :
    sent sig (w.emit e).trace = sent sig w.trace := by
  rw [emit_trace, sent_append, sent_single_other sig e h]
  rfl

theorem sent_emit_kill (sig x : Int) (w : World) :
    sent sig (w.emit (Event.kill x)).trace = sent sig w.trace + if x = sig then 1 else 0 := by
  rw [emit_trace, sent_append, sent_kill]

theorem sent_sem_trywait (sig : Int) (w : World) :
    sent sig (sem_trywait w).trace = sent sig w.trace := by
  unfold sem_trywait
  split
  · show sent sig (w.trace ++ [Event.sem_trywait true]) = _
    rw [sent_append, sent_single_other _ _ (by intro x; simp)]
    rfl
  · exact sent_emit_other _ _ _ (by intro x; simp)

theorem sent_sem_post (sig : Int) (w : World) :
    sent sig (sem_post w).trace = sent sig w.trace := by
  show sent sig (w.trace ++ [Event.sem_post]) = _
  rw [sent_append, sent_single_other _ _ (by intro x; simp)]
  rfl

theorem shm_sem_trywait (w : World) : (sem_trywait w).shm = w.shm := by
  unfold sem_trywait
  split <;> rfl

/-- What one step of inc_counter does to the store and to the count of broadcasts. -/
theorem inc_step_frame (i : Int) (pc : IncPc) (w : World) (sig : Int) :
    sent sig (inc_step i pc w).1.trace = sent sig w.trace ∧
    ((∀ v, pc ≠ IncPc.store v) → (inc_step i pc w).1.shm = w.shm) ∧
    (∀ v, pc = IncPc.store v →
      (inc_step i pc w).1.shm = w.shm.map (fun c => c.set i (wrap_int (v + 1)))) := by
  cases pc with
  | trywait =>
    unfold inc_step
    by_cases hi : i < 0 ∨ i ≥ COUNTER_AMOUNT
    · simp [hi]
    · simp only [hi, if_false]
      exact ⟨sent_sem_trywait _ _, fun _ => shm_sem_trywait _, by intro v hv; cases hv⟩
  | load =>
    unfold inc_step
    cases hs : w.shm with
    | none =>
      simp only [fail]
      refine ⟨?_, fun _ => ?_, by intro v hv; cases hv⟩
      · rw [sent_emit_other _ _ _ (by intro x; simp), sent_sem_post]
      · show w.shm = none
        exact hs
    | some c => exact ⟨rfl, fun _ => hs, by intro v hv; cases hv⟩
  | store v0 =>
    unfold inc_step
    refine ⟨rfl, fun h => absurd rfl (h v0), ?_⟩
    intro v hv
    cases hv
    rfl
  | post =>
    unfold inc_step
    exact ⟨sent_sem_post _ _, fun _ => rfl, by intro v hv; cases hv⟩

theorem sum_map_set (f : Handler → Nat) (h1 : Handler) :
    ∀ (hs : List Handler) (k : Nat) (h : Handler), hs[k]? = some h →
      ((hs.set k h1).map f).sum + f h = (hs.map f).sum + f h1 := by
  intro hs
  induction hs with
  | nil => intro k h hk; simp at hk
  | cons a rest ih =>
    intro k h hk
    cases k with
    | zero =>
      simp at hk
      subst hk
      simp
      omega
    | succ k =>
      simp at hk
      have := ih k h hk
      simp only [List.set_cons_succ, List.map_cons, List.sum_cons]
      omega

theorem get_set_other (c : Counters) (i j v : Int) (h : i ≠ j) :
    (c.set i v).get j = c.get j := by
  unfold Counters.set Counters.get
  by_cases h0 : i = 0
  · subst h0
    have : ¬ j = 0 := fun e => h e.symm
    simp [this]
  · by_cases h1 : i = 1
    · subst h1
      have : ¬ j = 1 := fun e => h e.symm
      simp [this]
    · by_cases h2 : i = 2
      · subst h2
        have : ¬ j = 2 := fun e => h e.symm
        simp [this]
      · by_cases h3 : i = 3
        · subst h3
          have : ¬ j = 3 := fun e => h e.symm
          simp [this]
        · simp [h0, h1, h2, h3]

theorem inc_step_shm_other (i j : Int) (hij : i ≠ j) (pc : IncPc) (w : World) (c : Counters)
    (hs : w.shm = some c) :
    ∃ c1, (inc_step i pc w).1.shm = some c1 ∧ c1.get j = c.get j := by
  obtain ⟨-, hsame, hstore⟩ := inc_step_frame i pc w 0
  cases pc with
  | store v =>
    refine ⟨c.set i (wrap_int (v + 1)), ?_, get_set_other c i j _ hij⟩
    rw [hstore v rfl, hs]
    rfl
  | trywait => exact ⟨c, by rw [hsame (by intro v; simp), hs], rfl⟩
  | load => exact ⟨c, by rw [hsame (by intro v; simp), hs], rfl⟩
  | post => exact ⟨c, by rw [hsame (by intro v; simp), hs], rfl⟩

theorem kind_rx_ne_tx (u usr1 : Bool) :
    (if usr1 = true then TX_COUNTER_SIGUSR1 else TX_COUNTER_SIGUSR2) ≠ kind_rx u := by
  cases u <;> cases usr1 <;> decide

/-- A step of a generator leaves both receive counters as they are and adds to the
broadcasts of a signal exactly the one it reports. -/
theorem gen_step_frame (rand : Nat → Nat) (p q : Generator) (w w1 : World)
    (osig : Option Int) (u : Bool) (h : gen_step rand p w = some (q, w1, osig))
    (c : Counters) (hs : w.shm = some c) :
    (∃ c1, w1.shm = some c1 ∧ c1.get (kind_rx u) = c.get (kind_rx u)) ∧
    (∀ sig, sent sig w1.trace = sent sig w.trace +
      (match osig with | none => 0 | some x => if x = sig then 1 else 0)) := by
  unfold gen_step at h
  split at h
  · split at h
    · simp only [Option.some.injEq, Prod.mk.injEq] at h
      obtain ⟨-, rfl, rfl⟩ := h
      exact ⟨⟨c, hs, rfl⟩, fun sig => sent_emit_other _ _ _ (by intro x; simp)⟩
    · simp only [Option.some.injEq, Prod.mk.injEq] at h
      obtain ⟨-, rfl, rfl⟩ := h
      exact ⟨⟨c, hs, rfl⟩, fun sig => rfl⟩
  · rename_i usr1 ipc _
    have hsh := inc_step_shm_other _ (kind_rx u) (kind_rx_ne_tx u usr1) ipc w c hs
    have hse := fun sig => (inc_step_frame
      (if usr1 = true then TX_COUNTER_SIGUSR1 else TX_COUNTER_SIGUSR2) ipc w sig).1
    simp only at h
    split at h <;>
    · simp only [Option.some.injEq, Prod.mk.injEq] at h
      obtain ⟨-, rfl, rfl⟩ := h
      exact ⟨hsh, fun sig => hse sig⟩
  · simp only [Option.some.injEq, Prod.mk.injEq] at h
    obtain ⟨-, rfl, rfl⟩ := h
    exact ⟨⟨c, hs, rfl⟩, fun sig => sent_emit_kill _ _ _⟩
  · split at h
    · simp only [Option.some.injEq, Prod.mk.injEq] at h
      obtain ⟨-, rfl, rfl⟩ := h
      refine ⟨⟨c, hs, rfl⟩, fun sig => ?_⟩
      rw [sent_emit_kill, sent_emit_other _ _ _ (by intro x; simp)]
    · simp only [Option.some.injEq, Prod.mk.injEq] at h
      obtain ⟨-, rfl, rfl⟩ := h
      exact ⟨⟨c, hs, rfl⟩, fun sig => rfl⟩
  · simp only [Option.some.injEq, Prod.mk.injEq] at h
    obtain ⟨-, rfl, rfl⟩ := h
    exact ⟨⟨c, hs, rfl⟩, fun sig => sent_emit_kill _ _ _⟩
  · cases h

theorem handler_mask_usr1 (group : Int) : handler_mask group = SIGUSR1 ↔ group = 1 := by
  unfold handler_mask
  by_cases h : group = 1
  · simp [h]
  · simp [h, SIGUSR1, SIGUSR2]

theorem kind_rx_eq (usr1 : Bool) :
    (if usr1 = true then RX_COUNTER_SIGUSR1 else RX_COUNTER_SIGUSR2) = kind_rx usr1 := by
  cases usr1 <;> rfl

theorem kind_rx_ne (u usr1 : Bool) (h : usr1 ≠ u) : kind_rx usr1 ≠ kind_rx u := by
  cases u <;> cases usr1 <;> first | exact absurd rfl h | decide

theorem kind_rx_valid (u : Bool) : ¬ (kind_rx u < 0 ∨ kind_rx u ≥ COUNTER_AMOUNT) := by
  cases u <;> decide

/-- A step of a handler either leaves the receive counter of kind `u` alone, without
owing more than before, or completes an increment it owed. -/
theorem handler_step_frame (u : Bool) (h h1 : Handler) (w w1 : World) (c : Counters)
    (hstep : handler_step h w = some (h1, w1)) (hs : w.shm = some c) :
    h1.group = h.group ∧ h1.g = h.g ∧ (∀ sig, sent sig w1.trace = sent sig w.trace) ∧
    ∃ c1, w1.shm = some c1 ∧
      ((c1.get (kind_rx u) = c.get (kind_rx u) ∧ h1.owed u ≤ h.owed u ∧
          ∀ v, h1.pc = HandlerPc.inc u (IncPc.store v) → v = c.get (kind_rx u)) ∨
       (∃ v, h.pc = HandlerPc.inc u (IncPc.store v) ∧
          c1.get (kind_rx u) = wrap_int (v + 1) ∧
          h1.owed u + 1 = h.owed u ∧ ∀ v1, h1.pc ≠ HandlerPc.inc u (IncPc.store v1))) := by
  unfold handler_step at hstep
  split at hstep
  · rename_i hpc
    by_cases hcl : h.g.child_loop = 0
    · simp only [hcl, if_true, Option.some.injEq, Prod.mk.injEq] at hstep
      obtain ⟨rfl, rfl⟩ := hstep
      refine ⟨rfl, rfl, fun _ => rfl, c, hs, Or.inl ⟨rfl, ?_, ?_⟩⟩
      · simp [Handler.owed, Handler.in_flight, Handler.pend, hpc]
      · intro v hv; simp at hv
    · simp only [hcl, if_false] at hstep
      by_cases hm : handler_mask h.group = SIGUSR1
      · have hg : h.group = 1 := (handler_mask_usr1 _).1 hm
        simp only [hm, if_true] at hstep
        by_cases hp : h.pending1 = true
        · simp only [hp, if_true, Option.some.injEq, Prod.mk.injEq] at hstep
          obtain ⟨rfl, rfl⟩ := hstep
          refine ⟨rfl, rfl, fun _ => rfl, c, hs, Or.inl ⟨rfl, ?_, ?_⟩⟩
          · cases u <;>
              simp [Handler.owed, Handler.in_flight, Handler.pend, hpc, hg, hp, kind_group]
          · intro v hv; simp [hg] at hv
        · simp [hp] at hstep
      · have hg : h.group ≠ 1 := fun e => hm ((handler_mask_usr1 _).2 e)
        simp only [hm, if_false] at hstep
        by_cases hp : h.pending2 = true
        · simp only [hp, if_true, Option.some.injEq, Prod.mk.injEq] at hstep
          obtain ⟨rfl, rfl⟩ := hstep
          refine ⟨rfl, rfl, fun _ => rfl, c, hs, Or.inl ⟨rfl, ?_, ?_⟩⟩
          · by_cases hg0 : h.group = 0 <;> cases u <;>
              simp [Handler.owed, Handler.in_flight, Handler.pend, hpc, hg, hg0, hp, kind_group]
          · intro v hv
            by_cases hg0 : h.group = 0 <;> simp [hg0] at hv
        · simp [hp] at hstep
  · rename_i usr1 ipc hpc
    simp only [kind_rx_eq] at hstep
    obtain ⟨hsent, hsame, hstore⟩ := inc_step_frame (kind_rx usr1) ipc w 0
    have hse := fun sig => (inc_step_frame (kind_rx usr1) ipc w sig).1
    cases ipc with
    | trywait =>
      have hv := kind_rx_valid usr1
      simp only [inc_step, hv, if_false, Option.some.injEq, Prod.mk.injEq] at hstep
      obtain ⟨rfl, rfl⟩ := hstep
      refine ⟨rfl, rfl, fun sig => sent_sem_trywait _ _, c, by rw [shm_sem_trywait, hs],
        Or.inl ⟨rfl, ?_, ?_⟩⟩
      · simp [Handler.owed, Handler.in_flight, Handler.pend, hpc]
      · intro v hv; simp at hv
    | load =>
      simp only [inc_step, hs, Option.some.injEq, Prod.mk.injEq] at hstep
      obtain ⟨rfl, rfl⟩ := hstep
      refine ⟨rfl, rfl, fun sig => rfl, c, hs, Or.inl ⟨rfl, ?_, ?_⟩⟩
      · simp [Handler.owed, Handler.in_flight, Handler.pend, hpc]
      · intro v hv
        simp only [HandlerPc.inc.injEq, IncPc.store.injEq] at hv
        obtain ⟨rfl, rfl⟩ := hv
        rfl
    | store v0 =>
      simp only [inc_step, Option.some.injEq, Prod.mk.injEq] at hstep
      obtain ⟨rfl, rfl⟩ := hstep
      refine ⟨rfl, rfl, fun sig => rfl, c.set (kind_rx usr1) (wrap_int (v0 + 1)),
        by simp [hs], ?_⟩
      by_cases hu : usr1 = u
      · subst hu
        refine Or.inr ⟨v0, hpc, get_set_same _ _ _ ?_ ?_, ?_, ?_⟩
        · cases usr1 <;> decide
        · cases usr1 <;> decide
        · simp [Handler.owed, Handler.in_flight, Handler.pend, hpc]
        · intro v1 hv1; simp at hv1
      · refine Or.inl ⟨get_set_other _ _ _ _ (kind_rx_ne u usr1 hu), ?_, ?_⟩
        · simp [Handler.owed, Handler.in_flight, Handler.pend, hpc, hu]
        · intro v hv; simp at hv
    | post =>
      simp only [inc_step, Option.some.injEq, Prod.mk.injEq] at hstep
      obtain ⟨rfl, rfl⟩ := hstep
      refine ⟨rfl, rfl, fun sig => sent_sem_post _ _, c, hs, Or.inl ⟨rfl, ?_, ?_⟩⟩
      · simp [Handler.owed, Handler.in_flight, Handler.pend, hpc]
      · intro v hv; simp at hv
  · cases hstep

theorem deliver_pc (x : Int) (h : Handler) : (h.deliver x).pc = h.pc := by
  unfold Handler.deliver
  split
  · rfl
  · split <;> rfl

theorem deliver_group (x : Int) (h : Handler) : (h.deliver x).group = h.group := by
  unfold Handler.deliver
  split
  · rfl
  · split <;> rfl

theorem deliver_g (x : Int) (h : Handler) : (h.deliver x).g = h.g := by
  unfold Handler.deliver
  split
  · rfl
  · split <;> rfl

theorem sigusr2_ne_sigusr1 : ¬ SIGUSR2 = SIGUSR1 := by decide

theorem deliver_pend_other (x : Int) (u : Bool) (h : Handler) (hx : x ≠ kind_sig u) :
    (h.deliver x).pend u = h.pend u := by
  cases u
  · have h2 : ¬ x = SIGUSR2 := hx
    by_cases h1 : x = SIGUSR1 <;> simp [Handler.deliver, Handler.pend, h1, h2]
  · have h1 : ¬ x = SIGUSR1 := hx
    by_cases h2 : x = SIGUSR2 <;>
      simp [Handler.deliver, Handler.pend, h1, h2, sigusr2_ne_sigusr1]

theorem deliver_owed (x : Int) (u : Bool) (h : Handler) :
    (h.deliver x).owed u ≤ h.owed u +
      (if x = kind_sig u then (if h.group = kind_group u then 1 else 0) else 0) := by
  have hin : (h.deliver x).in_flight u = h.in_flight u := by
    unfold Handler.in_flight
    rw [deliver_pc]
  unfold Handler.owed
  rw [hin, deliver_group]
  by_cases hx : x = kind_sig u
  · simp only [hx, if_true]
    by_cases hg : h.group = kind_group u
    · simp only [hg, true_and, if_true]
      split <;> split <;> omega
    · simp [hg]
  · rw [deliver_pend_other x u h hx]
    simp [hx]

theorem owed_total_deliver (x : Int) (u : Bool) (hs : List Handler) :
    owed_total u (hs.map (Handler.deliver x)) ≤
      owed_total u hs + (if x = kind_sig u then subscribers u hs else 0) := by
  induction hs with
  | nil => simp [owed_total]
  | cons a rest ih =>
    have ha := deliver_owed x u a
    simp only [owed_total, subscribers, List.map_cons, List.sum_cons] at ih ⊢
    by_cases hx : x = kind_sig u
    · simp only [hx, if_true] at ih ha ⊢
      omega
    · simp only [hx, if_false] at ih ha ⊢
      omega

theorem subscribers_deliver (x : Int) (u : Bool) (hs : List Handler) :
    subscribers u (hs.map (Handler.deliver x)) = subscribers u hs := by
  induction hs with
  | nil => rfl
  | cons a rest ih =>
    simp only [subscribers, List.map_cons, List.sum_cons] at ih ⊢
    rw [ih, deliver_group]

theorem subscribers_set (u : Bool) (hs : List Handler) (k : Nat) (h h1 : Handler)
    (hk : hs[k]? = some h) (hg : h1.group = h.group) :
    subscribers u (hs.set k h1) = subscribers u hs := by
  have := sum_map_set (fun h => if h.group = kind_group u then 1 else 0) h1 hs k h hk
  simp only [hg] at this
  unfold subscribers
  omega

theorem read_counter_frame (i : Int) (w : World) (sig : Int) :
    (read_counter i w).2.shm = w.shm ∧
    sent sig (read_counter i w).2.trace = sent sig w.trace := by
  unfold read_counter
  split
  · exact ⟨rfl, rfl⟩
  · split
    · exact ⟨rfl, sent_emit_other _ _ _ (by intro x; simp)⟩
    · exact ⟨rfl, rfl⟩

theorem print_report_frame (a b : Nat) (w : World) (sig : Int) :
    (print_report a b w).shm = w.shm ∧
    sent sig (print_report a b w).trace = sent sig w.trace := by
  simp only [print_report]
  refine ⟨?_, ?_⟩
  · rw [emit_shm, (read_counter_frame _ _ sig).1, (read_counter_frame _ _ sig).1,
      (read_counter_frame _ _ sig).1, (read_counter_frame _ _ sig).1]
  · rw [sent_emit_other _ _ _ (by intro x; simp), (read_counter_frame _ _ sig).2,
      (read_counter_frame _ _ sig).2, (read_counter_frame _ _ sig).2,
      (read_counter_frame _ _ sig).2]

theorem report_iteration_frame (sc : Int) (now : Nat) (r : Reporter) (w : World) (sig : Int) :
    (report_iteration sc now r w).2.shm = w.shm ∧
    sent sig (report_iteration sc now r w).2.trace = sent sig w.trace := by
  simp only [report_iteration]
  split_ifs <;> first | exact ⟨rfl, rfl⟩ | exact print_report_frame _ _ _ _

theorem reporter_step_frame (sc : Int) (now : Nat) (p p1 : ReporterProc) (w w1 : World)
    (h : reporter_step sc now p w = some (p1, w1)) (sig : Int) :
    w1.shm = w.shm ∧ sent sig w1.trace = sent sig w.trace ∧ p1.g = p.g ∧
    (p1.exited = true → p.exited = true ∨ p.g.child_loop = 0) := by
  unfold reporter_step at h
  split at h
  · cases h
  · split at h
    · rename_i hcl
      simp only [Option.some.injEq, Prod.mk.injEq] at h
      obtain ⟨rfl, rfl⟩ := h
      exact ⟨rfl, rfl, rfl, fun _ => Or.inr hcl⟩
    · split at h
      · simp only [Option.some.injEq, Prod.mk.injEq] at h
        obtain ⟨rfl, rfl⟩ := h
        exact ⟨(report_iteration_frame _ _ _ _ sig).1, (report_iteration_frame _ _ _ _ sig).2,
          rfl, fun hx => Or.inl hx⟩
      · split at h
        · simp only [Option.some.injEq, Prod.mk.injEq] at h
          obtain ⟨rfl, rfl⟩ := h
          exact ⟨(report_iteration_frame _ _ _ _ sig).1,
            (report_iteration_frame _ _ _ _ sig).2, rfl, fun hx => Or.inl hx⟩
        · cases h

theorem wrap_int_lower (x : Int) : -2147483648 ≤ wrap_int x := by
  unfold wrap_int
  omega

/-- The invariant RxInv is kept by every step of the system. -/
theorem rx_inv_step (rand : Nat → Nat) (u : Bool) (s t : Sys) (a : Action)
    (hinv : RxInv u s) (hstep : step rand s a = some t) : RxInv u t := by
  obtain ⟨c, hs, hlo, hsum, hfl, hsub⟩ := hinv
  unfold step at hstep
  split at hstep
  · -- a generator moves
    split at hstep
    · cases hstep
    · rename_i k p hk
      split at hstep
      · cases hstep
      · rename_i q w1 hg
        simp only [Option.some.injEq] at hstep
        subst hstep
        obtain ⟨⟨c1, hc1, hget⟩, hsent⟩ := gen_step_frame rand p q s.w w1 none u hg c hs
        have hse := hsent (kind_sig u)
        simp only [add_zero] at hse
        refine ⟨c1, hc1, by rw [hget]; exact hlo, ?_, ?_, hsub⟩
        · show c1.get (kind_rx u) + (owed_total u s.handlers : Int) ≤
            2 * (sent (kind_sig u) w1.trace : Int)
          rw [hget, hse]
          exact hsum
        · intro h hh v hv
          have := hfl h hh v hv
          show -2147483648 ≤ v ∧ v + (owed_total u s.handlers : Int) ≤
            2 * (sent (kind_sig u) w1.trace : Int)
          rw [hse]
          exact this
      · rename_i q w1 x hg
        simp only [Option.some.injEq] at hstep
        subst hstep
        obtain ⟨⟨c1, hc1, hget⟩, hsent⟩ := gen_step_frame rand p q s.w w1 (some x) u hg c hs
        have hse := hsent (kind_sig u)
        have hod := owed_total_deliver x u s.handlers
        have hsd := subscribers_deliver x u s.handlers
        have key : (owed_total u (s.handlers.map (Handler.deliver x)) : Int) +
            2 * (sent (kind_sig u) s.w.trace : Int) ≤
            owed_total u s.handlers + 2 * (sent (kind_sig u) w1.trace : Int) := by
          rw [hse]
          by_cases hx : x = kind_sig u
          · simp only [hx, if_true] at hod ⊢
            push_cast
            omega
          · simp only [hx, if_false] at hod ⊢
            push_cast
            omega
        refine ⟨c1, hc1, by rw [hget]; exact hlo, ?_, ?_, by rw [← hsd] at hsub; exact hsub⟩
        · show c1.get (kind_rx u) + (owed_total u (s.handlers.map (Handler.deliver x)) : Int) ≤
            2 * (sent (kind_sig u) w1.trace : Int)
          rw [hget]
          omega
        · intro h hh v hv
          show -2147483648 ≤ v ∧
            v + (owed_total u (s.handlers.map (Handler.deliver x)) : Int) ≤
            2 * (sent (kind_sig u) w1.trace : Int)
          obtain ⟨h0, hh0, rfl⟩ := List.mem_map.1 hh
          rw [deliver_pc] at hv
          have := hfl h0 hh0 v hv
          exact ⟨this.1, by omega⟩
  · -- a handler moves
    split at hstep
    · cases hstep
    · rename_i k _ h hk
      split at hstep
      · cases hstep
      · rename_i _ h1 w1 hh
        simp only [Option.some.injEq] at hstep
        subst hstep
        obtain ⟨hgrp, -, hsent, c1, hc1, hcase⟩ := handler_step_frame u h h1 s.w w1 c hh hs
        have hse := hsent (kind_sig u)
        have hset := sum_map_set (Handler.owed u) h1 s.handlers k h hk
        have hmem : h ∈ s.handlers := List.getElem?_mem hk
        have hsub2 := subscribers_set u s.handlers k h h1 hk hgrp
        refine ⟨c1, hc1, ?_⟩
        show -2147483648 ≤ c1.get (kind_rx u) ∧
          c1.get (kind_rx u) + (owed_total u (s.handlers.set k h1) : Int) ≤
            2 * (sent (kind_sig u) w1.trace : Int) ∧
          (∀ h2 ∈ s.handlers.set k h1, ∀ v, h2.pc = HandlerPc.inc u (IncPc.store v) →
            -2147483648 ≤ v ∧ v + (owed_total u (s.handlers.set k h1) : Int) ≤
              2 * (sent (kind_sig u) w1.trace : Int)) ∧
          subscribers u (s.handlers.set k h1) ≤ 2
        rw [hse, hsub2]
        unfold owed_total at hsum hfl ⊢
        rcases hcase with ⟨hget, hle, hnew⟩ | ⟨v0, hpc, hget, hdec, hnone⟩
        · refine ⟨by rw [hget]; exact hlo, by rw [hget]; omega, ?_, hsub⟩
          intro h2 hh2 v hv
          rcases List.mem_or_eq_of_mem_set hh2 with hin | heq
          · have := hfl h2 hin v hv
            exact ⟨this.1, by omega⟩
          · subst heq
            have hv2 := hnew v hv
            subst hv2
            exact ⟨hlo, by omega⟩
        · have hold := hfl h hmem v0 hpc
          have hw := wrap_int_le (v0 + 1)
          refine ⟨by rw [hget]; exact wrap_int_lower _, by rw [hget]; omega, ?_, hsub⟩
          intro h2 hh2 v hv
          rcases List.mem_or_eq_of_mem_set hh2 with hin | heq
          · have := hfl h2 hin v hv
            exact ⟨this.1, by omega⟩
          · subst heq
            exact absurd hv (hnone v)
  · -- the reporter moves
    split at hstep
    · cases hstep
    · rename_i sc now _ p w1 hr
      simp only [Option.some.injEq] at hstep
      subst hstep
      obtain ⟨hshm, hse, -, -⟩ := reporter_step_frame sc now s.reporter p s.w w1 hr (kind_sig u)
      refine ⟨c, by rw [hshm]; exact hs, hlo, ?_, ?_, hsub⟩
      · show c.get (kind_rx u) + (owed_total u s.handlers : Int) ≤
          2 * (sent (kind_sig u) w1.trace : Int)
        rw [hse]
        exact hsum
      · intro h hh v hv
        show -2147483648 ≤ v ∧ v + (owed_total u s.handlers : Int) ≤
          2 * (sent (kind_sig u) w1.trace : Int)
        rw [hse]
        exact hfl h hh v hv

theorem spawned_handlers (shm0 : Option Counters) (sem : Nat) :
    (spawned shm0 sem).handlers =
      [{ group := 1, g := Globals.main, pending1 := false, pending2 := false,
         pc := HandlerPc.wait },
       { group := 0, g := Globals.main, pending1 := false, pending2 := false,
         pc := HandlerPc.wait },
       { group := 1, g := Globals.main, pending1 := false, pending2 := false,
         pc := HandlerPc.wait },
       { group := 0, g := Globals.main, pending1 := false, pending2 := false,
         pc := HandlerPc.wait }] := rfl

theorem spawned_at_handlers (w : World) :
    (spawned_at w).handlers =
      [{ group := 1, g := Globals.main, pending1 := false, pending2 := false,
         pc := HandlerPc.wait },
       { group := 0, g := Globals.main, pending1 := false, pending2 := false,
         pc := HandlerPc.wait },
       { group := 1, g := Globals.main, pending1 := false, pending2 := false,
         pc := HandlerPc.wait },
       { group := 0, g := Globals.main, pending1 := false, pending2 := false,
         pc := HandlerPc.wait }] := rfl

/-- The invariant RxInv holds when the children are forked on zeroed counters. -/
theorem rx_inv_spawned_at (u : Bool) (w : World) (h0 : w.shm = some Counters.zero) :
    RxInv u (spawned_at w) := by
  refine ⟨Counters.zero, h0, ?_, ?_, ?_, ?_⟩
  · cases u <;> decide
  · have h2 : owed_total u (spawned_at w).handlers = 0 := by
      rw [spawned_at_handlers]
      cases u <;> decide
    have h3 : Counters.zero.get (kind_rx u) = 0 := by cases u <;> decide
    rw [h2, h3]
    have : (0 : Int) ≤ (sent (kind_sig u) (spawned_at w).w.trace : Int) := Int.ofNat_nonneg _
    omega
  · intro h hh v hv
    rw [spawned_at_handlers] at hh
    simp only [List.mem_cons, List.mem_singleton, List.not_mem_nil, or_false] at hh
    rcases hh with rfl | rfl | rfl | rfl <;> cases hv
  · rw [spawned_at_handlers]
    cases u <;> decide

theorem init_counters_ok_shm (w : World) :
    (init_counters Env.ok w).2.shm = some Counters.zero := by
  simp [init_counters, Env.ok, zero_counters, Counters.set, Counters.zero]

theorem rx_inv_spawned (u : Bool) (shm0 : Option Counters) (sem : Nat) :
    RxInv u (spawned shm0 sem) :=
  rx_inv_spawned_at u _ (init_counters_ok_shm _)

theorem rx_inv_exec (rand : Nat → Nat) (u : Bool) (acts : List Action) :
    ∀ s t : Sys, RxInv u s → exec rand acts s = some t → RxInv u t := by
  induction acts with
  | nil =>
    intro s t hinv h
    simp only [exec, Option.some.injEq] at h
    subst h
    exact hinv
  | cons a rest ih =>
    intro s t hinv h
    unfold exec at h
    split at h
    · cases h
    · rename_i s1 hs1
      exact ih s1 t (rx_inv_step rand u s s1 a hinv hs1) h

theorem sent_le_broadcasts (t : List Event) :
    sent SIGUSR1 t + sent SIGUSR2 t ≤ broadcasts t := by
  induction t with
  | nil => decide
  | cons e rest ih =>
    have h1 : ∀ sig, sent sig (e :: rest) = sent sig [e] + sent sig rest := fun sig =>
      sent_append sig [e] rest
    have h2 : broadcasts (e :: rest) = broadcasts [e] + broadcasts rest :=
      broadcasts_append [e] rest
    rw [h1, h1, h2]
    have h3 : sent SIGUSR1 [e] + sent SIGUSR2 [e] ≤ broadcasts [e] := by
      cases e with
      | kill x =>
        rw [sent_kill, sent_kill, broadcasts_kill]
        by_cases hx : x = SIGUSR1
        · subst hx
          simp [sigusr2_ne_sigusr1, Ne.symm sigusr2_ne_sigusr1]
        · simp only [hx, if_false]
          split <;> omega
      | _ => exact Nat.zero_le _
    omega

/-- C6, refuted as stated: under a rand() that always returns 0, generator 0 emits
one SIGUSR2 (tx_kind_b becomes 1) and the two handlers of group 0 each wake on it and
count it (rx_kind_b becomes 2); the state is reachable and has
rx_kind_a + rx_kind_b = 2 > 1 = tx_kind_a + tx_kind_b. -/
theorem rx_exceeds_tx :
    (exec rand_zero one_emission_two_wakes (spawned none 0)).map (fun s => s.w.shm)
      = some (some { c0 := 0, c1 := 2, c2 := 0, c3 := 1 }) ∧
    ¬ (∀ (rand : Nat → Nat) (s : Sys), Reachable rand s → rx_sum s.w ≤ tx_sum s.w) := by
  have hev : (exec rand_zero one_emission_two_wakes (spawned none 0)).map (fun s => s.w.shm)
      = some (some { c0 := 0, c1 := 2, c2 := 0, c3 := 1 }) := by decide
  refine ⟨hev, fun hall => ?_⟩
  cases hex : exec rand_zero one_emission_two_wakes (spawned none 0) with
  | none =>
    rw [hex] at hev
    cases hev
  | some s =>
    rw [hex] at hev
    simp only [Option.map_some', Option.some.injEq] at hev
    have := hall rand_zero s ⟨none, 0, one_emission_two_wakes, hex⟩
    simp only [rx_sum, tx_sum, read_counter, hev] at this
    revert this
    simp [RX_COUNTER_SIGUSR1, RX_COUNTER_SIGUSR2, TX_COUNTER_SIGUSR1, TX_COUNTER_SIGUSR2,
      COUNTER_AMOUNT, Counters.get]

/-- When init_counters reports no failure, it leaves the four counters at zero, in an
object that holds them. -/
theorem init_counters_success_zeroes (env : Env) (w : World)
    (h : errors (init_counters env w).2.trace = errors w.trace) :
    (init_counters env w).2.shm = some Counters.zero ∧
    (init_counters env w).2.unsized = false := by
  have herr : ∀ call, errors (fail call w).2.trace = errors w.trace + 1 := by
    intro call
    simp [fail, World.emit, errors, List.filter_append]
  by_cases h1 : w.shm = none ∧ env.deny_create = true
  · exfalso
    have e : (init_counters env w).2.trace = (fail Call.shm_open w).2.trace := by
      simp only [init_counters, if_pos h1]
    rw [e, herr] at h
    omega
  · by_cases h2 : env.deny_ftruncate = true
    · exfalso
      have e : (init_counters env w).2.trace = (fail Call.ftruncate w).2.trace := by
        simp only [init_counters, if_neg h1, if_pos h2]
      rw [e, herr] at h
      omega
    · simp only [init_counters, if_neg h1, if_neg h2]
      exact ⟨by simp [zero_counters, Counters.set, Counters.zero], trivial⟩

/-- Without the success of init_counters the bound by the broadcasts does not hold.
When the store cannot be created, main forks its children without store:
read_counter then returns 1 for rx_kind_a although nothing was broadcast. When the
store exists and ftruncate fails, the counters keep the values of the earlier run: on
the store 5, 6, 7, 8 rx_kind_a is 5 although nothing was broadcast. -/
theorem rx_bound_needs_zeroed_counters :
    (main host_no_shm ["./app"] id world_fresh).forked.length = 8 ∧
    (main_world_at_fork host_no_shm world_fresh).shm = none ∧
    (read_counter RX_COUNTER_SIGUSR1
      (spawned_at (main_world_at_fork host_no_shm world_fresh)).w).1 = 1 ∧
    broadcasts (spawned_at (main_world_at_fork host_no_shm world_fresh)).w.trace = 0 ∧
    (main_world_at_fork host_no_ftruncate world_small).shm
      = some { c0 := 5, c1 := 6, c2 := 7, c3 := 8 } ∧
    (read_counter RX_COUNTER_SIGUSR1
      (spawned_at (main_world_at_fork host_no_ftruncate world_small)).w).1 = 5 ∧
    broadcasts (spawned_at (main_world_at_fork host_no_ftruncate world_small)).w.trace
      = 0 := by
  decide

/-- C6, amended: when the four counters are zero at the moment the children are forked
(init_counters succeeded), then in every state the forked system reaches, under any
schedule and any rand(), rx_kind_a is at most twice the number of SIGUSR1 broadcasts
so far, rx_kind_b at most twice the number of SIGUSR2 broadcasts, hence
rx_kind_a + rx_kind_b at most twice the number of notifications broadcast (each
broadcast wakes the two handlers of its kind, and each of them counts it). -/
theorem rx_at_most_twice_broadcasts (rand : Nat → Nat) (w0 : World) (acts : List Action)
    (s : Sys) (h0 : w0.shm = some Counters.zero)
    (hex : exec rand acts (spawned_at w0) = some s) :
    (read_counter RX_COUNTER_SIGUSR1 s.w).1 ≤ 2 * (sent SIGUSR1 s.w.trace : Int) ∧
    (read_counter RX_COUNTER_SIGUSR2 s.w).1 ≤ 2 * (sent SIGUSR2 s.w.trace : Int) ∧
    rx_sum s.w ≤ 2 * (broadcasts s.w.trace : Int) := by
  obtain ⟨c, hc, -, h1, -, -⟩ :=
    rx_inv_exec rand true acts _ s (rx_inv_spawned_at true w0 h0) hex
  obtain ⟨d, hd, -, h2, -, -⟩ :=
    rx_inv_exec rand false acts _ s (rx_inv_spawned_at false w0 h0) hex
  rw [hc] at hd
  cases hd
  have hb := sent_le_broadcasts s.w.trace
  have e1 : (read_counter RX_COUNTER_SIGUSR1 s.w).1 = c.get (kind_rx true) := by
    simp [read_counter, hc, RX_COUNTER_SIGUSR1, COUNTER_AMOUNT, kind_rx]
  have e2 : (read_counter RX_COUNTER_SIGUSR2 s.w).1 = c.get (kind_rx false) := by
    simp [read_counter, hc, RX_COUNTER_SIGUSR2, COUNTER_AMOUNT, kind_rx]
  have k1 : kind_sig true = SIGUSR1 := rfl
  have k2 : kind_sig false = SIGUSR2 := rfl
  rw [k1] at h1
  rw [k2] at h2
  refine ⟨by rw [e1]; omega, by rw [e2]; omega, ?_⟩
  unfold rx_sum
  rw [e1, e2]
  omega

theorem exec_after_two_wakes :
    exec rand_zero one_emission_two_wakes (spawned none 0) = some after_two_wakes := by
  have hev : (exec rand_zero one_emission_two_wakes (spawned none 0)).isSome = true := by
    decide
  unfold after_two_wakes
  cases hex : exec rand_zero one_emission_two_wakes (spawned none 0) with
  | none =>
    rw [hex] at hev
    cases hev
  | some s => rfl

theorem spawned_eq_spawned_at_world_zero : spawned none 0 = spawned_at world_zero := by
  have h : (init_counters Env.ok { shm := none, sem := 0, trace := [] }).2.toWorld
      = world_zero := by decide
  unfold spawned
  rw [h]

/-- Witness of the amended C6: on a fresh host where init_counters succeeds the
children are forked on zeroed counters; the state reached by the schedule of one
emission and two wakes has rx_kind_b = 2 with one SIGUSR2 broadcast, within the bound. -/
theorem rx_at_most_twice_broadcasts_witness :
    main_world_at_fork host_fresh world_fresh = world_zero ∧
    world_zero.shm = some Counters.zero ∧
    exec rand_zero one_emission_two_wakes (spawned_at world_zero) = some after_two_wakes ∧
    ((read_counter RX_COUNTER_SIGUSR1 after_two_wakes.w).1
      ≤ 2 * (sent SIGUSR1 after_two_wakes.w.trace : Int) ∧
    (read_counter RX_COUNTER_SIGUSR2 after_two_wakes.w).1
      ≤ 2 * (sent SIGUSR2 after_two_wakes.w.trace : Int) ∧
    rx_sum after_two_wakes.w ≤ 2 * (broadcasts after_two_wakes.w.trace : Int)) :=
  ⟨by decide, rfl, by rw [← spawned_eq_spawned_at_world_zero]; exact exec_after_two_wakes,
   rx_at_most_twice_broadcasts rand_zero world_zero one_emission_two_wakes after_two_wakes
     rfl (by rw [← spawned_eq_spawned_at_world_zero]; exact exec_after_two_wakes)⟩

/-! ## The shutdown flag and the emission budget across processes -/

theorem signal_handler_loop_waits (group : Int) (g : Globals) (hg : g.child_loop ≠ 0)
    (arrivals : List Int) :
    ∀ w : World, (signal_handler_loop group arrivals g w).1 = LoopEnd.waiting := by
  induction arrivals with
  | nil =>
    intro w
    simp [signal_handler_loop, hg]
  | cons a rest ih =>
    intro w
    rw [signal_handler_loop]
    simp only [hg, if_false]
    exact ih _

theorem report_loop_waits (g : Globals) (hg : g.child_loop ≠ 0)
    (arrivals : List (Int × Nat)) :
    ∀ (r : Reporter) (w : World), (report_loop arrivals g r w).1 = LoopEnd.waiting := by
  induction arrivals with
  | nil =>
    intro r w
    simp [report_loop, hg]
  | cons a rest ih =>
    intro r w
    rw [report_loop]
    simp only [hg, if_false]
    exact ih _ _

theorem handler_step_stays (h h1 : Handler) (w w1 : World)
    (hstep : handler_step h w = some (h1, w1)) (hcl : h.g.child_loop ≠ 0) :
    h1.pc ≠ HandlerPc.exited := by
  unfold handler_step at hstep
  split at hstep
  · simp only [hcl, if_false] at hstep
    split at hstep
    · split at hstep
      · simp only [Option.some.injEq, Prod.mk.injEq] at hstep
        obtain ⟨rfl, -⟩ := hstep
        show (if h.group = 1 then HandlerPc.inc true IncPc.trywait else HandlerPc.wait) ≠ _
        split <;> simp
      · cases hstep
    · split at hstep
      · simp only [Option.some.injEq, Prod.mk.injEq] at hstep
        obtain ⟨rfl, -⟩ := hstep
        show (if h.group = 0 then HandlerPc.inc false IncPc.trywait else HandlerPc.wait) ≠ _
        split <;> simp
      · cases hstep
  · simp only at hstep
    split at hstep <;>
    · simp only [Option.some.injEq, Prod.mk.injEq] at hstep
      obtain ⟨rfl, -⟩ := hstep
      simp
  · cases hstep

theorem reporter_deliver_frame (x : Int) (p : ReporterProc) :
    (p.deliver x).g = p.g ∧ (p.deliver x).exited = p.exited := by
  unfold ReporterProc.deliver
  split
  · exact ⟨rfl, rfl⟩
  · split <;> exact ⟨rfl, rfl⟩

/-- No step of any process changes the copy of child_loop a handler or the reporter
holds, and none of them leaves its loop. -/
theorem flag_inv_step (rand : Nat → Nat) (s t : Sys) (a : Action)
    (hinv : FlagInv s) (hstep : step rand s a = some t) : FlagInv t := by
  obtain ⟨hh, hr, he⟩ := hinv
  unfold step at hstep
  split at hstep
  · split at hstep
    · cases hstep
    · split at hstep
      · cases hstep
      · simp only [Option.some.injEq] at hstep
        subst hstep
        exact ⟨hh, hr, he⟩
      · rename_i x _
        simp only [Option.some.injEq] at hstep
        subst hstep
        refine ⟨?_, ?_, ?_⟩
        · intro h hmem
          obtain ⟨h0, hh0, rfl⟩ := List.mem_map.1 hmem
          rw [deliver_g, deliver_pc]
          exact hh h0 hh0
        · show (s.reporter.deliver x).g.child_loop = 1
          rw [(reporter_deliver_frame x s.reporter).1]
          exact hr
        · show (s.reporter.deliver x).exited = false
          rw [(reporter_deliver_frame x s.reporter).2]
          exact he
  · split at hstep
    · cases hstep
    · rename_i k _ h hk
      split at hstep
      · cases hstep
      · rename_i _ h1 w1 hhs
        simp only [Option.some.injEq] at hstep
        subst hstep
        have hmem : h ∈ s.handlers := List.getElem?_mem hk
        have hold := hh h hmem
        refine ⟨?_, hr, he⟩
        intro h2 hh2
        rcases List.mem_or_eq_of_mem_set hh2 with hin | heq
        · exact hh h2 hin
        · subst heq
          have hne : h.g.child_loop ≠ 0 := by rw [hold.1]; decide
          refine ⟨?_, handler_step_stays h h2 s.w w1 hhs hne⟩
          have hg : h2.g = h.g := by
            unfold handler_step at hhs
            split at hhs
            · simp only [hne, if_false] at hhs
              split at hhs
              · split at hhs
                · simp only [Option.some.injEq, Prod.mk.injEq] at hhs
                  obtain ⟨rfl, -⟩ := hhs
                  rfl
                · cases hhs
              · split at hhs
                · simp only [Option.some.injEq, Prod.mk.injEq] at hhs
                  obtain ⟨rfl, -⟩ := hhs
                  rfl
                · cases hhs
            · simp only at hhs
              split at hhs <;>
              · simp only [Option.some.injEq, Prod.mk.injEq] at hhs
                obtain ⟨rfl, -⟩ := hhs
                rfl
            · cases hhs
          rw [hg]
          exact hold.1
  · split at hstep
    · cases hstep
    · rename_i sc now _ p w1 hrs
      simp only [Option.some.injEq] at hstep
      subst hstep
      obtain ⟨-, -, hg, hex⟩ := reporter_step_frame sc now s.reporter p s.w w1 hrs 0
      refine ⟨hh, by show p.g.child_loop = 1; rw [hg]; exact hr, ?_⟩
      show p.exited = false
      cases hpe : p.exited with
      | false => rfl
      | true =>
        rcases hex hpe with h1 | h2
        · rw [he] at h1
          cases h1
        · rw [hr] at h2
          cases h2

theorem flag_inv_exec (rand : Nat → Nat) (acts : List Action) :
    ∀ s t : Sys, FlagInv s → exec rand acts s = some t → FlagInv t := by
  induction acts with
  | nil =>
    intro s t hinv h
    simp only [exec, Option.some.injEq] at h
    subst h
    exact hinv
  | cons a rest ih =>
    intro s t hinv h
    unfold exec at h
    split at h
    · cases h
    · rename_i s1 hs1
      exact ih s1 t (flag_inv_step rand s s1 a hinv hs1) h

/-- In every reachable state of the spawned system, whatever the generators have done
to their own copies of child_loop, every handler and the reporter still hold 1 in
theirs and are still inside their loops. -/
theorem flags_stay_private (rand : Nat → Nat) (s : Sys) (h : Reachable rand s) :
    FlagInv s := by
  obtain ⟨shm0, sem, acts, hex⟩ := h
  refine flag_inv_exec rand acts _ s ?_ hex
  refine ⟨?_, rfl, rfl⟩
  intro h hh
  rw [spawned_handlers] at hh
  simp only [List.mem_cons, List.mem_singleton, List.not_mem_nil, or_false] at hh
  rcases hh with rfl | rfl | rfl | rfl <;> exact ⟨rfl, by simp⟩

theorem generator_run_from (rand : Nat → Nat) (g : Globals) (w : World) (c : Counters)
    (hg : g.total_emissions = 0) (hs : w.shm = some c) (h2 : 0 ≤ c.c2) (h3 : 0 ≤ c.c3)
    (hsum : c.c2 + c.c3 + 100000 ≤ INT_MAX) :
    ∃ d : Counters, (signal_generator_loop rand g w).2.2.shm = some d ∧
      0 ≤ d.c2 ∧ 0 ≤ d.c3 ∧ d.c2 + d.c3 = c.c2 + c.c3 + 100000 ∧
      broadcasts (signal_generator_loop rand g w).2.2.trace = broadcasts w.trace + 100020 := by
  obtain ⟨d, hd, hd2, hd3, hdsum, -, -, hb, -, -⟩ :=
    running_loop_spec rand MAX_GENERATOR_LOOP g w c (by rw [hg]; simp) hs h2 h3
      (by simpa [MAX_GENERATOR_LOOP] using hsum)
  obtain ⟨hbs, hbb⟩ := burst_loop_spec 10 (running_loop rand g w).2
  refine ⟨d, ?_, hd2, hd3, ?_, ?_⟩
  · simp only [signal_generator_loop]
    rw [hbs, hd]
  · rw [hdsum]; simp [MAX_GENERATOR_LOOP]
  · simp only [signal_generator_loop]
    rw [hbb, hb]
    simp only [MAX_GENERATOR_LOOP]

/-- The three generators of run_generators leave the transmit counters at 300000 in
total and 300060 broadcasts in the trace, whatever rand() returns. -/
theorem run_generators_totals (rand : Nat → Nat) :
    tx_sum (run_generators rand world_zero) = 300000 ∧
    broadcasts (run_generators rand world_zero).trace = 300060 ∧
    (fork Globals.main).total_emissions = 0 := by
  obtain ⟨d1, hd1, p1, q1, s1, b1⟩ :=
    generator_run_from rand (fork Globals.main) world_zero Counters.zero rfl rfl
      (by decide) (by decide) (by decide)
  obtain ⟨d2, hd2, p2, q2, s2, b2⟩ :=
    generator_run_from rand (fork Globals.main) _ d1 rfl hd1 p1 q1
      (by rw [s1]; decide)
  obtain ⟨d3, hd3, p3, q3, s3, b3⟩ :=
    generator_run_from rand (fork Globals.main) _ d2 rfl hd2 p2 q2
      (by rw [s2, s1]; decide)
  have hrun : run_generators rand world_zero =
      (signal_generator_loop rand (fork Globals.main)
        (signal_generator_loop rand (fork Globals.main)
          (signal_generator_loop rand (fork Globals.main) world_zero).2.2).2.2).2.2 := rfl
  rw [hrun]
  refine ⟨?_, ?_, rfl⟩
  · simp only [tx_sum, read_counter, hd3, TX_COUNTER_SIGUSR1, TX_COUNTER_SIGUSR2,
      COUNTER_AMOUNT]
    have : d3.c2 + d3.c3 = 300000 := by
      rw [s3, s2, s1]; decide
    simpa [Counters.get] using this
  · rw [b3, b2, b1]
    rfl

/-! ## The steps compose back to the loop bodies -/

/-- Taken in a row, the steps of one pass of a generator through its running loop have
the effect of generator_body, and bring the generator back to the loop test. -/
theorem gen_run_pass (rand : Nat → Nat) (g : Globals) (w : World)
    (hlt : g.total_emissions < MAX_GENERATOR_LOOP) :
    ∃ n, gen_run rand n { g := g, pc := GenPc.test } w =
      some ({ g := { g with total_emissions := wrap_uint (g.total_emissions + 1),
                            rand_calls := g.rand_calls + 2 },
              pc := GenPc.test },
            generator_body rand g.rand_calls w) := by
  obtain ⟨shm, sem, trace⟩ := w
  cases shm with
  | none =>
    refine ⟨4, ?_⟩
    by_cases hr : get_random_signum (rand (g.rand_calls + 1)) = 0 <;>
    by_cases hsem : 0 < sem <;>
      simp [gen_run, gen_step, inc_step, generator_body, inc_counter, hlt, hr, hsem,
        sem_trywait, sem_post, fail, World.emit, TX_COUNTER_SIGUSR1, TX_COUNTER_SIGUSR2,
        COUNTER_AMOUNT]
  | some c =>
    refine ⟨6, ?_⟩
    by_cases hr : get_random_signum (rand (g.rand_calls + 1)) = 0 <;>
    by_cases hsem : 0 < sem <;>
      simp [gen_run, gen_step, inc_step, generator_body, inc_counter, hlt, hr, hsem,
        sem_trywait, sem_post, fail, World.emit, TX_COUNTER_SIGUSR1, TX_COUNTER_SIGUSR2,
        COUNTER_AMOUNT]

/-- Taken in a row, the steps of a handler of group 0 or 1 that wakes on its pending
signal have the effect of handler_iteration on that signal, and bring the handler
back to sigwait with the signal no longer pending. -/
theorem handler_run_pass (u : Bool) (g : Globals) (p1 p2 : Bool) (w : World)
    (hg : g.child_loop ≠ 0) (hp : (if u then p1 else p2) = true) :
    ∃ n, handler_run n { group := kind_group u, g := g, pending1 := p1, pending2 := p2,
                         pc := HandlerPc.wait } w =
      some ({ group := kind_group u, g := g, pending1 := if u then false else p1,
              pending2 := if u then p2 else false, pc := HandlerPc.wait },
            handler_iteration (kind_group u) (kind_sig u) w) := by
  obtain ⟨shm, sem, trace⟩ := w
  cases shm with
  | none =>
    refine ⟨3, ?_⟩
    cases u <;> by_cases hsem : 0 < sem <;>
      simp_all [handler_run, handler_step, inc_step, handler_iteration, inc_counter,
        handler_mask, kind_group, kind_sig, sem_trywait, sem_post, fail, World.emit,
        RX_COUNTER_SIGUSR1, RX_COUNTER_SIGUSR2, COUNTER_AMOUNT, SIGUSR1, SIGUSR2]
  | some c =>
    refine ⟨5, ?_⟩
    cases u <;> by_cases hsem : 0 < sem <;>
      simp_all [handler_run, handler_step, inc_step, handler_iteration, inc_counter,
        handler_mask, kind_group, kind_sig, sem_trywait, sem_post, fail, World.emit,
        RX_COUNTER_SIGUSR1, RX_COUNTER_SIGUSR2, COUNTER_AMOUNT, SIGUSR1, SIGUSR2]

theorem gen_run_append (rand : Nat → Nat) (m n : Nat) :
    ∀ (p q : Generator) (w v : World), gen_run rand m p w = some (q, v) →
      gen_run rand (m + n) p w = gen_run rand n q v := by
  induction m with
  | zero =>
    intro p q w v h
    simp only [gen_run, Option.some.injEq, Prod.mk.injEq] at h
    obtain ⟨rfl, rfl⟩ := h
    simp
  | succ m ih =>
    intro p q w v h
    have e : m + 1 + n = (m + n) + 1 := by omega
    rw [e]
    cases hstep : gen_step rand p w with
    | none => simp [gen_run, hstep] at h
    | some r =>
      obtain ⟨q1, w1, os⟩ := r
      simp only [gen_run, hstep] at h ⊢
      exact ih q1 q w1 v h

/-- Taken in a row, the steps of a generator from the loop test until the loop is left
have the effect of running_loop followed by `child_loop = 0`. -/
theorem gen_run_running (rand : Nat → Nat) (k : Nat) :
    ∀ (g : Globals) (w : World), g.total_emissions + k = MAX_GENERATOR_LOOP →
      ∃ n, gen_run rand n { g := g, pc := GenPc.test } w =
        some ({ g := { (running_loop rand g w).1 with child_loop := 0 },
                pc := GenPc.burst1 0 }, (running_loop rand g w).2) := by
  induction k with
  | zero =>
    intro g w hk
    have hlt : ¬ g.total_emissions < MAX_GENERATOR_LOOP := by omega
    refine ⟨1, ?_⟩
    rw [running_loop]
    simp [gen_run, gen_step, hlt]
  | succ k ih =>
    intro g w hk
    have hlt : g.total_emissions < MAX_GENERATOR_LOOP := by omega
    have hw : wrap_uint (g.total_emissions + 1) = g.total_emissions + 1 := by
      simp only [wrap_uint]
      simp only [MAX_GENERATOR_LOOP] at hlt
      omega
    obtain ⟨n1, h1⟩ := gen_run_pass rand g w hlt
    obtain ⟨n2, h2⟩ := ih
      { g with total_emissions := wrap_uint (g.total_emissions + 1),
               rand_calls := g.rand_calls + 2 }
      (generator_body rand g.rand_calls w) (by simp only [hw]; omega)
    refine ⟨n1 + n2, ?_⟩
    rw [gen_run_append rand n1 n2 _ _ _ _ h1, h2]
    conv_rhs => rw [running_loop]
    simp only [hlt, if_true]

/-- Taken in a row, the steps of the burst from round `i` on have the effect of
burst_loop for the rounds left, and end with the generator exited. -/
theorem gen_run_burst (rand : Nat → Nat) (g : Globals) (j : Nat) :
    ∀ (i : Nat) (w : World), i + j = 10 →
      ∃ n, gen_run rand n { g := g, pc := GenPc.burst1 i } w =
        some ({ g := g, pc := GenPc.exited }, burst_loop j w) := by
  induction j with
  | zero =>
    intro i w hi
    have : ¬ i < 10 := by omega
    exact ⟨1, by simp [gen_run, gen_step, this, burst_loop]⟩
  | succ j ih =>
    intro i w hi
    have hlt : i < 10 := by omega
    obtain ⟨n, hn⟩ := ih (i + 1)
      (((w.emit (Event.usleep 40000)).emit (Event.kill SIGUSR1)).emit (Event.kill SIGUSR2))
      (by omega)
    refine ⟨n + 2, ?_⟩
    rw [burst_loop, ← hn]
    simp [gen_run, gen_step, hlt]

/-- Taken in a row, the steps of a generator forked with total_emissions at 0 have the
effect of signal_generator_loop. -/
theorem gen_run_full (rand : Nat → Nat) (g : Globals) (w : World)
    (hg : g.total_emissions = 0) :
    ∃ n, gen_run rand n { g := g, pc := GenPc.test } w =
      some ({ g := (signal_generator_loop rand g w).2.1, pc := GenPc.exited },
            (signal_generator_loop rand g w).2.2) := by
  obtain ⟨n1, h1⟩ := gen_run_running rand MAX_GENERATOR_LOOP g w (by rw [hg]; simp)
  obtain ⟨n2, h2⟩ := gen_run_burst rand { (running_loop rand g w).1 with child_loop := 0 } 10
    0 (running_loop rand g w).2 (by decide)
  refine ⟨n1 + n2, ?_⟩
  rw [gen_run_append rand n1 n2 _ _ _ _ h1, h2]
  rfl

theorem exec_append (rand : Nat → Nat) (a b : List Action) :
    ∀ s t : Sys, exec rand a s = some t → exec rand (a ++ b) s = exec rand b t := by
  induction a with
  | nil =>
    intro s t h
    simp only [exec, Option.some.injEq] at h
    subst h
    rfl
  | cons x rest ih =>
    intro s t h
    cases hstep : step rand s x with
    | none => simp [exec, hstep] at h
    | some s1 =>
      simp only [exec, hstep, List.cons_append] at h ⊢
      exact ih s1 t h

theorem step_gen (rand : Nat → Nat) (s : Sys) (k : Nat) (p q : Generator) (w1 : World)
    (os : Option Int) (hk : s.gens[k]? = some p)
    (hstep : gen_step rand p s.w = some (q, w1, os)) :
    ∃ t, step rand s (Action.gen k) = some t ∧ t.gens = s.gens.set k q ∧ t.w = w1 := by
  cases os with
  | none =>
    exact ⟨{ s with w := w1, gens := s.gens.set k q }, by simp only [step, hk, hstep],
      rfl, rfl⟩
  | some x =>
    exact ⟨{ w := w1, gens := s.gens.set k q,
             handlers := s.handlers.map (Handler.deliver x),
             reporter := s.reporter.deliver x }, by simp only [step, hk, hstep], rfl, rfl⟩

/-- A generator running alone in the system does what gen_run says: its own entry of
the process table and the world change, the other generators do not. -/
theorem exec_gen_run (rand : Nat → Nat) (k : Nat) (n : Nat) :
    ∀ (s : Sys) (p q : Generator) (v : World), s.gens[k]? = some p →
      gen_run rand n p s.w = some (q, v) →
      ∃ t, exec rand (List.replicate n (Action.gen k)) s = some t ∧
        t.gens[k]? = some q ∧ (∀ j, j ≠ k → t.gens[j]? = s.gens[j]?) ∧ t.w = v := by
  induction n with
  | zero =>
    intro s p q v hk h
    simp only [gen_run, Option.some.injEq, Prod.mk.injEq] at h
    obtain ⟨rfl, rfl⟩ := h
    exact ⟨s, rfl, hk, fun _ _ => rfl, rfl⟩
  | succ n ih =>
    intro s p q v hk h
    cases hstep : gen_step rand p s.w with
    | none => simp [gen_run, hstep] at h
    | some r =>
      obtain ⟨q1, w1, os⟩ := r
      simp only [gen_run, hstep] at h
      obtain ⟨s1, hs1, hg1, hw1⟩ := step_gen rand s k p q1 w1 os hk hstep
      have hlen : k < s.gens.length := (List.getElem?_eq_some_iff.1 hk).1
      have hk1 : s1.gens[k]? = some q1 := by
        rw [hg1, List.getElem?_set]
        simp [hlen]
      obtain ⟨t, ht, htk, hto, htw⟩ := ih s1 q1 q v hk1 (by rw [hw1]; exact h)
      refine ⟨t, ?_, htk, ?_, htw⟩
      · simp only [List.replicate_succ, exec, hs1]
        exact ht
      · intro j hj
        rw [hto j hj, hg1, List.getElem?_set_ne (Ne.symm hj)]

/-- The three generators can run to their exit one after the other: the resulting
state is reachable, every generator in it has exited with its own child_loop at 0,
and its world is the one run_generators computes. -/
theorem generators_finish_reachable (rand : Nat → Nat) :
    ∃ s, Reachable rand s ∧
      (∀ p ∈ s.gens, p.pc = GenPc.exited ∧ p.g.child_loop = 0) ∧
      s.w = run_generators rand world_zero := by
  have hgens : ∀ j, j < 3 →
      (spawned none 0).gens[j]? = some { g := fork Globals.main, pc := GenPc.test } := by
    intro j hj
    have : j = 0 ∨ j = 1 ∨ j = 2 := by omega
    rcases this with rfl | rfl | rfl <;> rfl
  have hlen : (spawned none 0).gens.length = 3 := rfl
  have hw0 : (spawned none 0).w = world_zero := by decide
  -- generator 0
  obtain ⟨n0, h0⟩ := gen_run_full rand (fork Globals.main) (spawned none 0).w rfl
  obtain ⟨s0, e0, k0, o0, w0⟩ := exec_gen_run rand 0 n0 _ _ _ _ (hgens 0 (by decide)) h0
  -- generator 1
  obtain ⟨n1, h1⟩ := gen_run_full rand (fork Globals.main) s0.w rfl
  obtain ⟨s1, e1, k1, o1, w1⟩ := exec_gen_run rand 1 n1 s0 _ _ _
    (by rw [o0 1 (by decide)]; exact hgens 1 (by decide)) h1
  -- generator 2
  obtain ⟨n2, h2⟩ := gen_run_full rand (fork Globals.main) s1.w rfl
  obtain ⟨s2, e2, k2, o2, w2⟩ := exec_gen_run rand 2 n2 s1 _ _ _
    (by rw [o1 2 (by decide), o0 2 (by decide)]; exact hgens 2 (by decide)) h2
  refine ⟨s2, ⟨none, 0, List.replicate n0 (Action.gen 0) ++
      (List.replicate n1 (Action.gen 1) ++ List.replicate n2 (Action.gen 2)), ?_⟩, ?_, ?_⟩
  · rw [exec_append rand _ _ _ _ e0, exec_append rand _ _ _ _ e1]
    exact e2
  · intro p hp
    obtain ⟨j, hj⟩ := List.mem_iff_getElem?.1 hp
    have hj3 : j < 3 := by
      by_contra hge
      have h3 : s2.gens[j]? = (spawned none 0).gens[j]? := by
        rw [o2 j (by omega), o1 j (by omega), o0 j (by omega)]
      rw [h3, List.getElem?_eq_none (by rw [hlen]; omega)] at hj
      cases hj
    have : j = 0 ∨ j = 1 ∨ j = 2 := by omega
    rcases this with rfl | rfl | rfl
    · rw [o2 0 (by decide), o1 0 (by decide), k0] at hj
      cases hj
      exact ⟨rfl, rfl⟩
    · rw [o2 1 (by decide), k1] at hj
      cases hj
      exact ⟨rfl, rfl⟩
    · rw [k2] at hj
      cases hj
      exact ⟨rfl, rfl⟩
  · rw [w2, w1, w0, hw0]
    rfl

/-- No step creates or removes a generator. -/
theorem exec_gens_length (rand : Nat → Nat) (acts : List Action) :
    ∀ a b : Sys, exec rand acts a = some b → b.gens.length = a.gens.length := by
  induction acts with
  | nil =>
    intro a b h
    simp only [exec, Option.some.injEq] at h
    subst h
    rfl
  | cons x rest ih =>
    intro a b h
    cases hstep : step rand a x with
    | none => simp [exec, hstep] at h
    | some a1 =>
      simp only [exec, hstep] at h
      rw [ih a1 b h]
      unfold step at hstep
      split at hstep
      · split at hstep
        · cases hstep
        · split at hstep
          · cases hstep
          · simp only [Option.some.injEq] at hstep
            subst hstep
            simp
          · simp only [Option.some.injEq] at hstep
            subst hstep
            simp
      · split at hstep
        · cases hstep
        · split at hstep
          · cases hstep
          · simp only [Option.some.injEq] at hstep
            subst hstep
            rfl
      · split at hstep
        · cases hstep
        · simp only [Option.some.injEq] at hstep
          subst hstep
          rfl

/-! ## The emission budget and the shutdown flag across processes -/

/-- C3, evaluated on the code: in the spawned system the three generators, each forked
with its own copy of total_emissions at 0, can run to their exit one after the
other; in the state reached all three have exited, the transmit counters add up to
300000 and 300060 notifications have been broadcast, whatever rand() returns. Every
generator spends a budget of 100000 of its own. -/
theorem budget_is_per_generator (rand : Nat → Nat) :
    (fork Globals.main).total_emissions = 0 ∧
    ∃ s, Reachable rand s ∧ (∀ p ∈ s.gens, p.pc = GenPc.exited) ∧ s.gens.length = 3 ∧
      tx_sum s.w = 300000 ∧ broadcasts s.w.trace = 300060 := by
  obtain ⟨s, hreach, hex, hw⟩ := generators_finish_reachable rand
  obtain ⟨h1, h2, -⟩ := run_generators_totals rand
  obtain ⟨shm0, sem, acts, hacts⟩ := hreach
  refine ⟨rfl, s, ⟨shm0, sem, acts, hacts⟩, fun p hp => (hex p hp).1, ?_, ?_, ?_⟩
  · rw [exec_gens_length rand acts _ s hacts]
    rfl
  · rw [hw]
    exact h1
  · rw [hw]
    exact h2

/-- C4, evaluated on the code: the state in which all three generators have exhausted
their budget, set child_loop = 0 (each in its own copy), sent their bursts and
exited is reachable; and in every reachable state of the spawned system, that one
and all that follow it included, every handler and the reporter still hold 1 in
their copy of child_loop and have not left their loop. Taken alone, a handler of any
group and the reporter, started on their copy of the globals of main in the world
a generator left behind, handle any sequence of arrivals without leaving their loop
and end blocked in sigwait. -/
theorem shutdown_flag_not_observed (rand : Nat → Nat) :
    (∃ s, Reachable rand s ∧ s.gens.length = 3 ∧
      (∀ p ∈ s.gens, p.pc = GenPc.exited ∧ p.g.child_loop = 0)) ∧
    (∀ s, Reachable rand s →
      (∀ h ∈ s.handlers, h.g.child_loop = 1 ∧ h.pc ≠ HandlerPc.exited) ∧
      s.reporter.g.child_loop = 1 ∧ s.reporter.exited = false) ∧
    (∀ (w : World) (group : Int) (arrivals : List Int) (reports : List (Int × Nat)),
      (signal_generator_loop rand (fork Globals.main) w).2.1.child_loop = 0 ∧
      (signal_handler_loop group arrivals (fork Globals.main)
        (signal_generator_loop rand (fork Globals.main) w).2.2).1 = LoopEnd.waiting ∧
      (report_loop reports (fork Globals.main) Reporter.start
        (signal_generator_loop rand (fork Globals.main) w).2.2).1 = LoopEnd.waiting) := by
  refine ⟨?_, fun s hs => flags_stay_private rand s hs, ?_⟩
  · obtain ⟨s, ⟨shm0, sem, acts, hacts⟩, hex, -⟩ := generators_finish_reachable rand
    exact ⟨s, ⟨shm0, sem, acts, hacts⟩, by rw [exec_gens_length rand acts _ s hacts]; rfl, hex⟩
  · intro w group arrivals reports
    exact ⟨rfl, signal_handler_loop_waits group _ (by decide) arrivals _,
      report_loop_waits _ (by decide) reports _ _⟩

/-! ## The coordinator -/

theorem main_forks_eq :
    main_forks = [Child.reporter, Child.handler 1, Child.handler 0, Child.handler 1,
      Child.handler 0, Child.generator, Child.generator, Child.generator] := by
  decide

theorem init_counters_sem (env : Env) (w : World) : (init_counters env w).2.sem = w.sem := by
  unfold init_counters
  split
  · rfl
  · split <;> rfl

/-- C11, evaluated on the code: on a host without semaphore, main creates it with
sem_open( ..., 0 ): whatever the world and the outcome of init_counters, its value is
0 when the children are forked, the first sem_trywait does not take it, and the first
inc_counter of a generator starts with a failed sem_trywait. -/
theorem gate_starts_unavailable (env : Env) (w : World) :
    (main_world_at_fork { env := env, deny_sem_open := false, sem_exists := false } w).sem
      = 0 ∧
    (sem_trywait
      (main_world_at_fork { env := env, deny_sem_open := false, sem_exists := false } w)).trace
      = (main_world_at_fork { env := env, deny_sem_open := false, sem_exists := false }
          w).trace ++ [Event.sem_trywait false] ∧
    ∃ rest, (inc_counter TX_COUNTER_SIGUSR1
        (main_world_at_fork { env := env, deny_sem_open := false, sem_exists := false }
          w)).2.trace
      = (main_world_at_fork { env := env, deny_sem_open := false, sem_exists := false }
          w).trace ++ Event.sem_trywait false :: rest := by
  have hsem : (main_world_at_fork
      { env := env, deny_sem_open := false, sem_exists := false } w).sem = 0 := by
    show (init_counters env (sem_open false 0 w)).2.sem = 0
    rw [init_counters_sem]
    rfl
  refine ⟨hsem, ?_, ?_⟩
  · simp [sem_trywait, hsem, World.emit]
  · rw [inc_counter_valid _ _ (by decide) (by decide), hsem]
    exact ⟨Event.sem_post :: (match (main_world_at_fork
        { env := env, deny_sem_open := false, sem_exists := false } w).shm with
      | none => [Event.perror Call.shm_open]
      | some _ => []), by simp⟩

/-- C12, evaluated on the code: whatever the outcome of init_counters, a normal run of
main on which sem_open succeeds forks the reporter, the four handlers and the three
generators; on a host where the store cannot be created, init_counters fails (one
perror, no store) and the eight children are forked all the same. -/
theorem init_failure_does_not_stop_forks (env : Env) (sem_exists : Bool)
    (children : World → World) (w : World) :
    (main { env := env, deny_sem_open := false, sem_exists := sem_exists } ["./app"]
        children w).forked
      = [Child.reporter, Child.handler 1, Child.handler 0, Child.handler 1, Child.handler 0,
         Child.generator, Child.generator, Child.generator] ∧
    (main_world_at_fork host_no_shm world_fresh).shm = none ∧
    errors (main_world_at_fork host_no_shm world_fresh).trace = 1 ∧
    (main host_no_shm ["./app"] children world_fresh).forked.length = 8 := by
  have h : is_reset ["./app"] = false := by decide
  refine ⟨?_, by decide, by decide, ?_⟩
  · simp only [main, h, Bool.false_eq_true, if_false]
    exact main_forks_eq
  · simp only [main, h, host_no_shm, Bool.false_eq_true, if_false]
    rw [main_forks_eq]
    rfl

/-- C13, evaluated on the code: the reset command ends with exit code 0, but a normal
run of main in which all children have exited and the store has been removed ends
with `return 1`, which is not EXIT_SUCCESS and is the value of EXIT_FAILURE. -/
theorem orderly_exit_code_is_one (env : Env) (sem_exists : Bool) (deny : Bool)
    (children : World → World) (w : World) :
    (main { env := env, deny_sem_open := deny, sem_exists := sem_exists } ["./app", "reset"]
        children w).exit_code = EXIT_SUCCESS ∧
    (main { env := env, deny_sem_open := false, sem_exists := sem_exists } ["./app"]
        children w).exit_code = 1 ∧
    (main { env := env, deny_sem_open := false, sem_exists := sem_exists } ["./app"]
        children w).w.shm = none ∧
    (main { env := env, deny_sem_open := false, sem_exists := sem_exists } ["./app"]
        children w).exit_code ≠ EXIT_SUCCESS ∧
    (main { env := env, deny_sem_open := false, sem_exists := sem_exists } ["./app"]
        children w).exit_code = EXIT_FAILURE := by
  have h : is_reset ["./app"] = false := by decide
  have hr : is_reset ["./app", "reset"] = true := by decide
  refine ⟨?_, ?_, ?_, ?_, ?_⟩
  · simp only [main, hr, if_true, reset_command]
  · simp only [main, h, Bool.false_eq_true, if_false]
  · simp only [main, h, Bool.false_eq_true, if_false, remove_counters]
  · simp only [main, h, Bool.false_eq_true, if_false]
    decide
  · simp only [main, h, Bool.false_eq_true, if_false]
    rfl

/-! ## Average interval for a positive count -/

theorem usub_self (a : Nat) : usub a a = 0 := by
  unfold usub
  omega

theorem usub_telescope (a b z : Nat) :
    wrap_uint (usub a z + usub b a) = usub b z := by
  unfold wrap_uint usub
  omega

theorem usub_cast (a b : Nat) :
    ((usub a b : Nat) : Int) = ((a : Int) % 4294967296 - (b : Int) % 4294967296) % 4294967296 := by
  unfold usub
  omega

/-- The sum accumulated by the loop of get_avg_interval telescopes, and the loop reads
no index beyond the last one it reaches. -/
theorem avg_loop_spec (time_list : Nat → Nat) (n : Nat) :
    ∀ (i avg : Nat) (reads : List Nat) (bound : Nat),
      avg = usub (time_list i) (time_list 0) → (∀ r ∈ reads, r ≤ bound) → i + n ≤ bound →
      (avg_loop time_list n i avg reads).1 = usub (time_list (i + n)) (time_list 0) ∧
      ∀ r ∈ (avg_loop time_list n i avg reads).2, r ≤ bound := by
  induction n with
  | zero =>
    intro i avg reads bound havg hreads _
    exact ⟨havg, hreads⟩
  | succ n ih =>
    intro i avg reads bound havg hreads hb
    have e : i + (n + 1) = (i + 1) + n := by omega
    rw [avg_loop, e]
    refine ih (i + 1) _ _ bound ?_ ?_ (by omega)
    · rw [havg]
      exact usub_telescope _ _ _
    · intro r hr
      rcases List.mem_append.1 hr with h | h
      · exact hreads r h
      · simp only [List.mem_cons, List.mem_singleton, List.not_mem_nil, or_false] at h
        omega

/-- C14: for every count of at least 1 and every array, get_avg_interval returns the
difference modulo 2 ^ 32 between time_list[count - 1] and time_list[0], divided by
count with truncation (the divisor is the number of samples, not of intervals); it
divides once and reads no index outside 0 .. count - 1. For timestamps below 2 ^ 32
that difference is (last - first) mod 2 ^ 32. -/
theorem get_avg_interval_telescopes (time_list : Nat → Nat) (count : Nat) (h : 1 ≤ count) :
    (get_avg_interval time_list count).result
      = usub (time_list (count - 1)) (time_list 0) / count ∧
    ((usub (time_list (count - 1)) (time_list 0) : Nat) : Int)
      = ((time_list (count - 1) : Int) % 4294967296 - (time_list 0 : Int) % 4294967296)
          % 4294967296 ∧
    (time_list (count - 1) < 4294967296 → time_list 0 < 4294967296 →
      ((get_avg_interval time_list count).result : Int)
        = (((time_list (count - 1) : Int) - (time_list 0 : Int)) % 4294967296) / (count : Int)) ∧
    (get_avg_interval time_list count).divisions = 1 ∧
    ∀ r ∈ (get_avg_interval time_list count).reads, r < count := by
  have hc : ¬ count < 1 := by omega
  obtain ⟨h1, h2⟩ := avg_loop_spec time_list (count - 1) 0 0 [] (count - 1)
    (usub_self _).symm (by simp) (by omega)
  have hres : (get_avg_interval time_list count).result
      = usub (time_list (count - 1)) (time_list 0) / count := by
    simp only [get_avg_interval, hc, if_false]
    rw [h1]
    simp
  refine ⟨hres, usub_cast _ _, ?_, ?_, ?_⟩
  · intro ha hb
    rw [hres]
    push_cast
    rw [usub_cast]
    have e1 : (time_list (count - 1) : Int) % 4294967296 = time_list (count - 1) := by omega
    have e2 : (time_list 0 : Int) % 4294967296 = time_list 0 := by omega
    rw [e1, e2]
  · simp only [get_avg_interval, hc, if_false]
  · intro r hr
    simp only [get_avg_interval, hc, if_false] at hr
    have := h2 r hr
    omega

/-- Witness of C14: the timestamps 100, 350, 700, 1300 give (1300 - 100) / 4 = 300. -/
theorem get_avg_interval_telescopes_witness :
    (get_avg_interval four_timestamps 4).result = 300 ∧
    ((get_avg_interval four_timestamps 4).result
      = usub (four_timestamps (4 - 1)) (four_timestamps 0) / 4 ∧
    ((usub (four_timestamps (4 - 1)) (four_timestamps 0) : Nat) : Int)
      = ((four_timestamps (4 - 1) : Int) % 4294967296 - (four_timestamps 0 : Int) % 4294967296)
          % 4294967296 ∧
    (four_timestamps (4 - 1) < 4294967296 → four_timestamps 0 < 4294967296 →
      ((get_avg_interval four_timestamps 4).result : Int)
        = (((four_timestamps (4 - 1) : Int) - (four_timestamps 0 : Int)) % 4294967296)
            / ((4 : Nat) : Int)) ∧
    (get_avg_interval four_timestamps 4).divisions = 1 ∧
    ∀ r ∈ (get_avg_interval four_timestamps 4).reads, r < 4) :=
  ⟨by decide, get_avg_interval_telescopes four_timestamps 4 (by decide)⟩

/-! ## What a handler counts -/

/-- C15, refuted as stated: a handler of group 0 wakes on SIGUSR2 while rx_kind_b holds
INT_MAX; the store exists, and after the pass rx_kind_b holds -2147483648, not one
more than before (the other three counters are unchanged). -/
theorem handler_wraps_at_int_max :
    (handler_iteration 0 (handler_mask 0) world_full_rx2).shm
      = some { c0 := 3, c1 := -2147483648, c2 := 0, c3 := 0 } ∧
    ¬ (∀ (group : Int) (w : World) (c : Counters), group = 0 ∨ group = 1 →
        w.shm = some c →
        (handler_iteration group (handler_mask group) w).shm
          = some (if group = 1 then { c with c0 := c.c0 + 1 }
                  else { c with c1 := c.c1 + 1 })) := by
  refine ⟨by decide, fun h => ?_⟩
  have h1 := h 0 world_full_rx2 _ (Or.inl rfl) rfl
  revert h1
  decide

/-- C15, amended: for a handler of group 1 (resp. 0), with the store present and
rx_kind_a (resp. rx_kind_b) holding an int below INT_MAX, one pass of the loop on the
signal the handler waits for, SIGUSR1 (resp. SIGUSR2), adds exactly one to slot 0
(resp. slot 1) and leaves the other three counters as they were. -/
theorem handler_counts_its_kind (group : Int) (w : World) (c : Counters)
    (hg : group = 0 ∨ group = 1) (hs : w.shm = some c)
    (hmax : c.get (if group = 1 then RX_COUNTER_SIGUSR1 else RX_COUNTER_SIGUSR2) < INT_MAX)
    (hmin : -2147483648 ≤ c.get (if group = 1 then RX_COUNTER_SIGUSR1 else RX_COUNTER_SIGUSR2)) :
    handler_mask group = (if group = 1 then SIGUSR1 else SIGUSR2) ∧
    (handler_iteration group (handler_mask group) w).shm
      = some (if group = 1 then { c with c0 := c.c0 + 1 }
              else { c with c1 := c.c1 + 1 }) := by
  refine ⟨rfl, ?_⟩
  simp only [INT_MAX] at hmax
  rcases hg with rfl | rfl
  · have hm : handler_mask 0 = SIGUSR2 := rfl
    have hget : c.get RX_COUNTER_SIGUSR2 = c.c1 := rfl
    simp only [show ¬ ((0 : Int) = 1) by decide, if_false, hget] at hmax hmin
    have hw : wrap_int (c.c1 + 1) = c.c1 + 1 := wrap_int_of_range _ (by omega) (by omega)
    rw [hm]
    simp only [handler_iteration, sigusr2_ne_sigusr1, false_and, if_false, true_and,
      if_true, show ¬ ((0 : Int) = 1) by decide]
    rw [inc_counter_shm _ _ (by decide) (by decide), hs]
    simp only [Option.map_some', hget, hw]
    rfl
  · have hm : handler_mask 1 = SIGUSR1 := rfl
    have hget : c.get RX_COUNTER_SIGUSR1 = c.c0 := rfl
    simp only [if_true, hget] at hmax hmin
    have hw : wrap_int (c.c0 + 1) = c.c0 + 1 := wrap_int_of_range _ (by omega) (by omega)
    rw [hm]
    have hne : ¬ SIGUSR1 = SIGUSR2 := by decide
    simp only [handler_iteration, hne, false_and, if_false, true_and, and_self, if_true,
      show ¬ ((1 : Int) = 0) by decide, and_false]
    rw [inc_counter_shm _ _ (by decide) (by decide), hs]
    simp only [Option.map_some', hget, hw]
    rfl

/-- Witness of the amended C15: a handler of group 1 on the store 5, 6, 7, 8 leaves
6, 6, 7, 8. -/
theorem handler_counts_its_kind_witness :
    (handler_iteration 1 (handler_mask 1) world_small).shm
      = some { c0 := 6, c1 := 6, c2 := 7, c3 := 8 } ∧
    (handler_mask 1 = (if (1 : Int) = 1 then SIGUSR1 else SIGUSR2) ∧
    (handler_iteration 1 (handler_mask 1) world_small).shm
      = some (if (1 : Int) = 1
              then { ({ c0 := 5, c1 := 6, c2 := 7, c3 := 8 } : Counters) with c0 := 5 + 1 }
              else { ({ c0 := 5, c1 := 6, c2 := 7, c3 := 8 } : Counters) with c1 := 6 + 1 })) :=
  ⟨by decide, handler_counts_its_kind 1 world_small { c0 := 5, c1 := 6, c2 := 7, c3 := 8 }
    (Or.inr rfl) rfl (by decide) (by decide)⟩

/-! ## Return values -/

/-- C16: inc_counter returns -1 for an index outside 0..3 and 1 otherwise, whether the
store could be opened (the increment is made) or not (perror, no increment);
init_counters returns 1 on success, when shm_open fails and when ftruncate fails; the
value returned on the failure paths is EXIT_FAILURE, which is 1. -/
theorem return_value_hides_failure (index : Int) (env : Env) (w : World) :
    EXIT_FAILURE = 1 ∧
    (inc_counter index w).1 = (if index < 0 ∨ index ≥ COUNTER_AMOUNT then -1 else 1) ∧
    (init_counters env w).1 = 1 ∧
    ((inc_counter 0 world_fresh).1 = 1 ∧ errors (inc_counter 0 world_fresh).2.trace = 1 ∧
      (inc_counter 0 world_fresh).2.shm = none) ∧
    ((inc_counter 0 world_small).1 = 1 ∧ errors (inc_counter 0 world_small).2.trace = 0) ∧
    ((init_counters { deny_create := true, deny_ftruncate := false } world_fresh).1 = 1 ∧
      errors (init_counters { deny_create := true, deny_ftruncate := false }
        world_fresh).2.trace = 1) ∧
    ((init_counters { deny_create := false, deny_ftruncate := true } world_fresh).1 = 1 ∧
      errors (init_counters { deny_create := false, deny_ftruncate := true }
        world_fresh).2.trace = 1) ∧
    ((init_counters Env.ok world_fresh).1 = 1 ∧
      errors (init_counters Env.ok world_fresh).2.trace = 0) := by
  refine ⟨rfl, ?_, ?_, by decide, by decide, by decide, by decide, by decide⟩
  · by_cases hi : index < 0 ∨ index ≥ COUNTER_AMOUNT
    · simp [inc_counter, hi]
    · have h0 : 0 ≤ index := by omega
      have h4 : index < 4 := by simp only [COUNTER_AMOUNT] at hi; omega
      rw [inc_counter_valid index w h0 h4, if_neg hi]
      cases w.shm <;> rfl
  · unfold init_counters
    split
    · rfl
    · split <;> rfl

/-! ## The spawned system is the one main forks -/

/-- The world and the handlers of `spawned` are those of a normal run of main at
fork time, on a host where init_counters succeeds: the groups of the handlers are the
ones main passes to signal_handler_loop, and there are as many generators as
generator children. -/
theorem spawned_matches_main (shm0 : Option Counters) (sem : Nat) :
    (spawned shm0 sem).w
      = main_world_at_fork { env := Env.ok, deny_sem_open := false, sem_exists := true }
          { shm := shm0, sem := sem, trace := [] } ∧
    (spawned shm0 0).w
      = main_world_at_fork host_fresh { shm := shm0, sem := sem, trace := [] } ∧
    [Child.reporter] ++ (spawned shm0 sem).handlers.map (fun h => Child.handler h.group) ++
      (spawned shm0 sem).gens.map (fun _ => Child.generator) = main_forks := by
  exact ⟨rfl, rfl, rfl⟩

/-! ## Executions of inc_counter that do not return -/

/-- On a host world whose object, if any, holds its counters, and with a mapping that
succeeds, inc_counter_exec returns what inc_counter computes. -/
theorem inc_counter_exec_sized (index : Int) (hw : HostWorld) (hu : hw.unsized = false) :
    inc_counter_exec false index hw
      = Outcome.returned (inc_counter index hw.toWorld).1
          { toWorld := (inc_counter index hw.toWorld).2, unsized := false } := by
  obtain ⟨⟨shm, sem, trace⟩, unsized⟩ := hw
  simp only at hu
  subst hu
  by_cases hi : index < 0 ∨ index ≥ COUNTER_AMOUNT
  · simp [inc_counter_exec, inc_counter, hi]
  · by_cases hsem : 0 < sem <;> cases shm <;>
      simp [inc_counter_exec, inc_counter, hi, sem_trywait, sem_post, fail, World.emit, hsem]

/-- C10, evaluated on the code: on a host without store where ftruncate fails,
init_counters leaves the object without counters and main forks its eight children
all the same; the first inc_counter of a generator then executes sem_trywait and is
killed at the increment, before sem_post: one attempt to take the gate, no release.
In general an execution of inc_counter that returns has released the gate as often
as it tried to take it (once for an index in 0..3, never for a rejected index), and
an execution that is killed has tried once and never released. -/
theorem inc_counter_killed_before_release (mmap_fails : Bool) (index : Int)
    (hw : HostWorld) (children : World → World) :
    (host_world_at_fork host_no_ftruncate world_fresh).unsized = true ∧
    (main host_no_ftruncate ["./app"] children world_fresh).forked.length = 8 ∧
    inc_counter_exec false TX_COUNTER_SIGUSR1
        (host_world_at_fork host_no_ftruncate world_fresh)
      = Outcome.killed
          { shm := none, sem := 0,
            trace := [Event.perror Call.ftruncate, Event.sem_trywait false],
            unsized := true } ∧
    acquires [Event.perror Call.ftruncate, Event.sem_trywait false] = 1 ∧
    releases [Event.perror Call.ftruncate, Event.sem_trywait false] = 0 ∧
    (match inc_counter_exec mmap_fails index hw with
     | Outcome.returned _ v =>
       ∃ evs : List Event, v.trace = hw.trace ++ evs ∧ releases evs = acquires evs ∧
         acquires evs = (if index < 0 ∨ index ≥ COUNTER_AMOUNT then 0 else 1)
     | Outcome.killed v =>
       ¬ (index < 0 ∨ index ≥ COUNTER_AMOUNT) ∧ (mmap_fails = true ∨ hw.unsized = true) ∧
       ∃ evs : List Event, v.trace = hw.trace ++ evs ∧ acquires evs = 1 ∧
         releases evs = 0) := by
  refine ⟨by decide, ?_, by decide, by decide, by decide, ?_⟩
  · have h : is_reset ["./app"] = false := by decide
    simp only [main, h, host_no_ftruncate, Bool.false_eq_true, if_false]
    rw [main_forks_eq]
    rfl
  · obtain ⟨⟨shm, sem, trace⟩, unsized⟩ := hw
    by_cases hi : index < 0 ∨ index ≥ COUNTER_AMOUNT
    · simp only [inc_counter_exec, hi, if_true]
      exact ⟨[], by simp [releases, acquires]⟩
    · simp only [inc_counter_exec, hi, if_false]
      have hshm : (sem_trywait { shm := shm, sem := sem, trace := trace }).shm = shm :=
        shm_sem_trywait _
      have htr : (sem_trywait { shm := shm, sem := sem, trace := trace }).trace
          = trace ++ [Event.sem_trywait (decide (0 < sem))] := by
        by_cases hsem : 0 < sem <;> simp [sem_trywait, World.emit, hsem]
      cases shm with
      | none =>
        simp only [hshm]
        cases unsized with
        | true =>
          simp only [if_true]
          exact ⟨not_false, Or.inr trivial, [Event.sem_trywait (decide (0 < sem))], htr,
            by simp [acquires], by simp [releases]⟩
        | false =>
          simp only [Bool.false_eq_true, if_false]
          refine ⟨[Event.sem_trywait (decide (0 < sem)), Event.sem_post,
            Event.perror Call.shm_open], ?_, by simp [releases, acquires],
            by simp [acquires]⟩
          simp [fail, sem_post, World.emit, htr]
      | some c =>
        simp only [hshm]
        cases mmap_fails with
        | true =>
          simp only [if_true]
          exact ⟨not_false, Or.inl trivial, [Event.sem_trywait (decide (0 < sem))], htr,
            by simp [acquires], by simp [releases]⟩
        | false =>
          simp only [Bool.false_eq_true, if_false]
          refine ⟨[Event.sem_trywait (decide (0 < sem)), Event.sem_post], ?_,
            by simp [releases, acquires], by simp [acquires]⟩
          simp [sem_post, htr]

end Project3
